import Mathlib

/-!
Shallow embedding of the emoji-fusion core game engine
(src/components/GameBoard.tsx, src/utils/powerUps.ts, src/utils/deadlock.ts)
and proofs about it.

Conventions of the embedding:
* JS numbers that are always non-negative integers in the program
  (tile ids, freeze turn counters, undo credits, slow-motion turns) are Nat;
  tile levels are Int because the Joker sentinel level is -1; scores are Rat
  because the merge score is Math.pow(2, level) with a possibly negative level.
* The 4x4 grid of nullable tiles is a total function from a pair of
  indices to Option Tile; JS array writes become function overrides.
* The frozen-tile object keyed by stringified tile id is a total function
  from tile id to Option Nat (none = key absent).
* Math.random driven choices (spawn cell, spawn tile, generated power-up)
  are passed in explicitly through an Env value, as are the transient
  isUndoing ref and the storage-backed flags, so every operation is a pure
  state transformer.
-/

namespace EmojiFusion

/-- The five power-up types (types/index.ts, powerUps.ts). -/
inductive PowerUpType where
| freeze
| swap
| delete
| undo
| slowmo
deriving DecidableEq

/-- The three interactive power-up types that arm a selection
(startPowerUpSelection only accepts these). -/
inductive SelType where
| swap
| delete
| freeze
deriving DecidableEq

/-- A tile (types/index.ts, plus the isJoker field the components attach). -/
structure Tile where
id : Nat
level : Int
row : Nat
col : Nat
merged : Bool
justMerged : Bool
justSpawned : Bool
isJoker : Bool
deriving DecidableEq

/-- Convenience constructor for a plain tile with all transient flags off. -/
def mkTile (id : Nat) (level : Int) (row col : Nat) : Tile :=
⟨id, level, row, col, false, false, false, false⟩

/-- The frozenTiles object: tile id to remaining turns; none = key absent. -/
def FrozenMap := Nat → Option Nat

/-- The empty frozenTiles object. -/
def noFrozen : FrozenMap := fun _ => none

/-- powerUps.ts isTileFrozen: frozenTiles[tileId] > 0 (absent key compares
false). -/
def isTileFrozen (tileId : Nat) (frozenTiles : FrozenMap) : Bool :=
match frozenTiles tileId with
| some turns => 0 < turns
| none => false

/-- powerUps.ts getFreezeRemainingTurns: frozenTiles[tileId] || 0. -/
def getFreezeRemainingTurns (tileId : Nat) (frozenTiles : FrozenMap) : Nat :=
match frozenTiles tileId with
| some turns => turns
| none => 0

/-- powerUps.ts freezeTile: store currentTurns + turns under the tile id. -/
def freezeTile (frozenTiles : FrozenMap) (tileId : Nat) (turns : Nat) : FrozenMap :=
fun id =>
if id = tileId then some (getFreezeRemainingTurns tileId frozenTiles + turns)
else frozenTiles id

/-- powerUps.ts updateFrozenTiles: keep turns - 1 for entries with
turns > 1, drop the rest. -/
def updateFrozenTiles (frozenTiles : FrozenMap) : FrozenMap :=
fun id =>
match frozenTiles id with
| some turns => if 1 < turns then some (turns - 1) else none
| none => none

/-- powerUps.ts unfreezeTile: delete the key. -/
def unfreezeTile (frozenTiles : FrozenMap) (tileId : Nat) : FrozenMap :=
fun id => if id = tileId then none else frozenTiles id

/-- GameBoard.tsx canMerge (deadlock.ts carries a textually identical
duplicate): merged-this-pass tiles and frozen tiles never merge, a Joker
merges with any non-Joker, two Jokers never merge, non-Jokers merge on
equal level. -/
def canMerge (tile1 tile2 : Tile) (frozenTiles : FrozenMap) : Bool :=
if tile1.merged || tile2.merged then false
else if isTileFrozen tile1.id frozenTiles || isTileFrozen tile2.id frozenTiles then false
else if tile1.isJoker && !tile2.isJoker then true
else if tile2.isJoker && !tile1.isJoker then true
else if tile1.isJoker && tile2.isJoker then false
else tile1.level == tile2.level

/-- Result of getMergeResult. -/
structure MergeOutcome where
level : Int
isJoker : Bool
deriving DecidableEq

/-- GameBoard.tsx getMergeResult. -/
def getMergeResult (targetTile movingTile : Tile) : MergeOutcome :=
if targetTile.isJoker && !movingTile.isJoker then ⟨movingTile.level + 1, false⟩
else if movingTile.isJoker && !targetTile.isJoker then ⟨targetTile.level + 1, false⟩
else ⟨targetTile.level + 1, false⟩

/-- The 4x4 grid: a total function; cells outside 0..3 are irrelevant to the
in-bounds scans and are read as whatever the function returns there. -/
def GridF := Nat → Nat → Option Tile

/-- The everywhere-empty grid. -/
def emptyGrid : GridF := fun _ _ => none

/-- Assignment newGrid[r][c] = v as a function override. -/
def writeCell (g : GridF) (r c : Nat) (v : Option Tile) : GridF :=
fun r' c' => if r' = r ∧ c' = c then v else g r' c'

/-- grid[row]?.[col] with integer coordinates: undefined (none) outside the
4x4 array, as in JS where an out-of-range index reads undefined. -/
def gridGetI (g : GridF) (row col : Int) : Option Tile :=
if 0 ≤ row ∧ row < 4 ∧ 0 ≤ col ∧ col < 4 then g row.toNat col.toNat else none

/-- The flag reset handleMove performs on every tile before resolving
(tile.merged = tile.justMerged = tile.justSpawned = false). -/
def clearTileFlags (t : Tile) : Tile :=
{ t with merged := false, justMerged := false, justSpawned := false }

/-- Flag reset applied across the whole grid; because the row copies are
shallow the reset also reaches the tiles referenced by the pre-move grid. -/
def clearFlagsGrid (g : GridF) : GridF :=
fun r c => (g r c).map clearTileFlags

/-- All sixteen board coordinates in row-major order, the order every scan
in the source uses. -/
def cells16 : List (Nat × Nat) :=
[(0,0),(0,1),(0,2),(0,3),
 (1,0),(1,1),(1,2),(1,3),
 (2,0),(2,1),(2,2),(2,3),
 (3,0),(3,1),(3,2),(3,3)]

/-- GameBoard.tsx getEmptyCells: row-major list of empty coordinates. -/
def getEmptyCells (g : GridF) : List (Nat × Nat) :=
cells16.filter (fun rc => (g rc.1 rc.2).isNone)

/-- One cell of the merge scan in deadlock.ts canMakeAnyMove: does the tile
at (r, c) have a neighbor it can merge with (right, down, left, up). -/
def cellHasMergeOption (g : GridF) (frozenTiles : FrozenMap) (r c : Nat) : Bool :=
match g r c with
| none => false
| some currentTile =>
  (decide (c < 3) && (match g r (c+1) with
    | some t => canMerge currentTile t frozenTiles
    | none => false)) ||
  (decide (r < 3) && (match g (r+1) c with
    | some t => canMerge currentTile t frozenTiles
    | none => false)) ||
  (decide (0 < c) && (match g r (c-1) with
    | some t => canMerge currentTile t frozenTiles
    | none => false)) ||
  (decide (0 < r) && (match g (r-1) c with
    | some t => canMerge currentTile t frozenTiles
    | none => false))

/-- deadlock.ts canMakeAnyMove: true on any empty cell, else true when some
tile has a mergeable 4-neighbor. -/
def canMakeAnyMove (g : GridF) (frozenTiles : FrozenMap) : Bool :=
cells16.any (fun rc => (g rc.1 rc.2).isNone) ||
cells16.any (fun rc => cellHasMergeOption g frozenTiles rc.1 rc.2)

/-- deadlock.ts wouldFreezingCauseDeadlock: simulate freezing the candidate
for 3 turns; if moves remain it is safe; with no moves it is unsafe under
active slow-motion or a full board, otherwise allowed. -/
def wouldFreezingCauseDeadlock (g : GridF) (tileId : Nat)
    (currentFrozenTiles : FrozenMap) (slowMotionTurns : Nat) : Bool :=
let simulatedFrozenTiles : FrozenMap :=
  fun id => if id = tileId then some 3 else currentFrozenTiles id
if canMakeAnyMove g simulatedFrozenTiles then false
else if 0 < slowMotionTurns then true
else if !(cells16.any (fun rc => (g rc.1 rc.2).isNone)) then true
else false

/-- powerUps.ts canSafelyFreezeTile. -/
def canSafelyFreezeTile (g : GridF) (tileId : Nat) (frozenTiles : FrozenMap)
    (slowMotionTurns : Nat) : Bool :=
!wouldFreezingCauseDeadlock g tileId frozenTiles slowMotionTurns

/-! ## Move resolution (handleMove, GameBoard.tsx lines 849-1013)

The four direction blocks are literal translations. The while loop that
walks one unfrozen tile toward the leading edge becomes structural
recursion on the distance still available in that direction. -/

/-- Outcome of a (partial) resolution: the grid plus the moved and merged
flags and the accumulated score delta of the mergeScore additions. -/
structure MoveOut where
grid : GridF
moved : Bool
merged : Bool
scoreDelta : Rat

/-- Math.pow(2, resultLevel), with the Int exponent JS allows. -/
def mergeScore (level : Int) : Rat := (2 : Rat) ^ level

/-- The merged target tile the source writes back: the target with the merge
result level and joker flag and the merged / justMerged flags set. -/
def mergedTile (target moving : Tile) : Tile :=
let res := getMergeResult target moving
{ target with
  level := res.level,
  isJoker := res.isJoker,
  merged := true,
  justMerged := true }

/-- The while loop of the left block: the tile currently at (r, pos) slides
toward column 0 while the left neighbor cell is empty, merges into a
mergeable left neighbor (once, then stops), and otherwise stops. -/
def slideLeft (frozenTiles : FrozenMap) (r : Nat) : Nat → GridF → MoveOut
| 0, g => ⟨g, false, false, 0⟩
| pos + 1, g =>
  match g r (pos + 1) with
  | none => ⟨g, false, false, 0⟩
  | some m =>
    match g r pos with
    | none =>
      let g1 := writeCell (writeCell g r pos (some { m with col := pos })) r (pos + 1) none
      let rest := slideLeft frozenTiles r pos g1
      ⟨rest.grid, true, rest.merged, rest.scoreDelta⟩
    | some target =>
      if canMerge target m frozenTiles then
        ⟨writeCell (writeCell g r pos (some (mergedTile target m))) r (pos + 1) none,
          true, true, mergeScore (getMergeResult target m).level⟩
      else ⟨g, false, false, 0⟩

/-- The while loop of the right block; fuel is 3 - pos, the number of cells
between the tile and the right edge. -/
def slideRight (frozenTiles : FrozenMap) (r : Nat) : Nat → Nat → GridF → MoveOut
| 0, _, g => ⟨g, false, false, 0⟩
| fuel + 1, pos, g =>
  if pos < 3 then
    match g r pos with
    | none => ⟨g, false, false, 0⟩
    | some m =>
      match g r (pos + 1) with
      | none =>
        let g1 := writeCell (writeCell g r (pos + 1) (some { m with col := pos + 1 })) r pos none
        let rest := slideRight frozenTiles r fuel (pos + 1) g1
        ⟨rest.grid, true, rest.merged, rest.scoreDelta⟩
      | some target =>
        if canMerge target m frozenTiles then
          ⟨writeCell (writeCell g r (pos + 1) (some (mergedTile target m))) r pos none,
            true, true, mergeScore (getMergeResult target m).level⟩
        else ⟨g, false, false, 0⟩
  else ⟨g, false, false, 0⟩

/-- The while loop of the up block: the tile at (pos, c) walks toward row 0. -/
def slideUp (frozenTiles : FrozenMap) (c : Nat) : Nat → GridF → MoveOut
| 0, g => ⟨g, false, false, 0⟩
| pos + 1, g =>
  match g (pos + 1) c with
  | none => ⟨g, false, false, 0⟩
  | some m =>
    match g pos c with
    | none =>
      let g1 := writeCell (writeCell g pos c (some { m with row := pos })) (pos + 1) c none
      let rest := slideUp frozenTiles c pos g1
      ⟨rest.grid, true, rest.merged, rest.scoreDelta⟩
    | some target =>
      if canMerge target m frozenTiles then
        ⟨writeCell (writeCell g pos c (some (mergedTile target m))) (pos + 1) c none,
          true, true, mergeScore (getMergeResult target m).level⟩
      else ⟨g, false, false, 0⟩

/-- The while loop of the down block; fuel is 3 - pos. -/
def slideDown (frozenTiles : FrozenMap) (c : Nat) : Nat → Nat → GridF → MoveOut
| 0, _, g => ⟨g, false, false, 0⟩
| fuel + 1, pos, g =>
  if pos < 3 then
    match g pos c with
    | none => ⟨g, false, false, 0⟩
    | some m =>
      match g (pos + 1) c with
      | none =>
        let g1 := writeCell (writeCell g (pos + 1) c (some { m with row := pos + 1 })) pos c none
        let rest := slideDown frozenTiles c fuel (pos + 1) g1
        ⟨rest.grid, true, rest.merged, rest.scoreDelta⟩
      | some target =>
        if canMerge target m frozenTiles then
          ⟨writeCell (writeCell g (pos + 1) c (some (mergedTile target m))) pos c none,
            true, true, mergeScore (getMergeResult target m).level⟩
        else ⟨g, false, false, 0⟩
  else ⟨g, false, false, 0⟩

/-- One iteration of the left block body: skip empty cells and frozen
tiles, otherwise run the while loop on the tile at (r, c). -/
def stepLeft (frozenTiles : FrozenMap) (g : GridF) (r c : Nat) : MoveOut :=
match g r c with
| some t =>
  if isTileFrozen t.id frozenTiles then ⟨g, false, false, 0⟩
  else slideLeft frozenTiles r c g
| none => ⟨g, false, false, 0⟩

/-- One iteration of the right block body. -/
def stepRight (frozenTiles : FrozenMap) (g : GridF) (r c : Nat) : MoveOut :=
match g r c with
| some t =>
  if isTileFrozen t.id frozenTiles then ⟨g, false, false, 0⟩
  else slideRight frozenTiles r (3 - c) c g
| none => ⟨g, false, false, 0⟩

/-- One iteration of the up block body. -/
def stepUp (frozenTiles : FrozenMap) (g : GridF) (r c : Nat) : MoveOut :=
match g r c with
| some t =>
  if isTileFrozen t.id frozenTiles then ⟨g, false, false, 0⟩
  else slideUp frozenTiles c r g
| none => ⟨g, false, false, 0⟩

/-- One iteration of the down block body. -/
def stepDown (frozenTiles : FrozenMap) (g : GridF) (r c : Nat) : MoveOut :=
match g r c with
| some t =>
  if isTileFrozen t.id frozenTiles then ⟨g, false, false, 0⟩
  else slideDown frozenTiles c (3 - r) r g
| none => ⟨g, false, false, 0⟩

/-- Run the per-cell body over the listed coordinates in order, threading
the grid and accumulating moved, merged and the score delta exactly as the
nested for loops do. -/
def foldCells (step : GridF → Nat → Nat → MoveOut) : List (Nat × Nat) → GridF → MoveOut
| [], g => ⟨g, false, false, 0⟩
| rc :: rest, g =>
  let o := step g rc.1 rc.2
  let o2 := foldCells step rest o.grid
  ⟨o2.grid, o.moved || o2.moved, o.merged || o2.merged, o.scoreDelta + o2.scoreDelta⟩

/-- A move direction. -/
inductive Dir where
| left
| right
| up
| down
deriving DecidableEq

/-- Cell visiting order of each direction block: left scans each row from
column 1 upward, right from column 2 downward, up scans each column from
row 1 downward the board, down from row 2 upward. -/
def dirOrder : Dir → List (Nat × Nat)
| .left => [(0,1),(0,2),(0,3),(1,1),(1,2),(1,3),(2,1),(2,2),(2,3),(3,1),(3,2),(3,3)]
| .right => [(0,2),(0,1),(0,0),(1,2),(1,1),(1,0),(2,2),(2,1),(2,0),(3,2),(3,1),(3,0)]
| .up => [(1,0),(2,0),(3,0),(1,1),(2,1),(3,1),(1,2),(2,2),(3,2),(1,3),(2,3),(3,3)]
| .down => [(2,0),(1,0),(0,0),(2,1),(1,1),(0,1),(2,2),(1,2),(0,2),(2,3),(1,3),(0,3)]

/-- The per-cell body of each direction block. -/
def dirStep (dir : Dir) (frozenTiles : FrozenMap) : GridF → Nat → Nat → MoveOut :=
match dir with
| .left => fun g r c => stepLeft frozenTiles g r c
| .right => fun g r c => stepRight frozenTiles g r c
| .up => fun g r c => stepUp frozenTiles g r c
| .down => fun g r c => stepDown frozenTiles g r c

/-- The pure resolution part of handleMove: clear the transient flags on
every tile (a mutation that reaches the pre-move grid through the shared
tile references), then run the direction block. -/
def resolveMove (dir : Dir) (g : GridF) (frozenTiles : FrozenMap) : MoveOut :=
foldCells (dirStep dir frozenTiles) (dirOrder dir) (clearFlagsGrid g)

/-! ## Power-up economy and selection state machine (powerUps.ts) -/

/-- A power-up inventory item; the JS id string is modelled by a Nat. -/
structure PowerUp where
id : Nat
type : PowerUpType
deriving DecidableEq

/-- A picked cell of a selection session. Coordinates are Int because the
pick entry points accept arbitrary coordinates. -/
structure CellRef where
row : Int
col : Int
deriving DecidableEq

/-- An armed selection session (powerUps.ts SelectingPowerUp, minus null,
which Option adds back at use sites). -/
structure SelectingPowerUp where
type : SelType
required : Nat
picked : List CellRef
powerUpId : Nat
deriving DecidableEq

/-- The legacy swapSelection of the old activePowerUp system. -/
structure SwapSelection where
tileId : Nat
row : Int
col : Int
deriving DecidableEq

/-- powerUps.ts PowerUpState. -/
structure PUState where
powerUps : List PowerUp
frozenTiles : FrozenMap
slowMotionTurns : Nat
extraUndos : Nat
spawnedUndos : Nat
activePowerUp : Option PowerUpType
swapSelection : Option SwapSelection
selectingPowerUp : Option SelectingPowerUp
inputLocked : Bool

/-- powerUps.ts initializePowerUpState. -/
def initializePowerUpState : PUState :=
⟨[], noFrozen, 0, 0, 0, none, none, none, false⟩

/-- powerUps.ts removePowerUp: filter out the id. -/
def removePowerUp (powerUps : List PowerUp) (powerUpId : Nat) : List PowerUp :=
powerUps.filter (fun p => p.id ≠ powerUpId)

/-- powerUps.ts addPowerUp: append only below the cap of 4. -/
def addPowerUp (powerUps : List PowerUp) (newPowerUp : PowerUp) : List PowerUp :=
if 4 ≤ powerUps.length then powerUps else powerUps ++ [newPowerUp]

/-- powerUps.ts shouldGeneratePowerUp: a strictly new highest level and a
free inventory slot. -/
def shouldGeneratePowerUp (currentPowerUps : List PowerUp)
    (previousHighestLevel currentHighestLevel : Int) : Bool :=
decide (previousHighestLevel < currentHighestLevel) && decide (currentPowerUps.length < 4)

/-- powerUps.ts startPowerUpSelection: required picks are 2 for swap and 1
for delete and freeze, starting from an empty picked list. -/
def startPowerUpSelection (type : SelType) (powerUpId : Nat) : SelectingPowerUp :=
match type with
| .swap => ⟨.swap, 2, [], powerUpId⟩
| .delete => ⟨.delete, 1, [], powerUpId⟩
| .freeze => ⟨.freeze, 1, [], powerUpId⟩

/-- powerUps.ts canPickTile: false on a null session, false when
grid[row]?.[col] is empty or out of bounds, false when swap targets a
frozen tile, else true. -/
def canPickTile (row col : Int) (g : GridF) (selectingPowerUp : Option SelectingPowerUp)
    (frozenTiles : FrozenMap) : Bool :=
match selectingPowerUp with
| none => false
| some sp =>
  match gridGetI g row col with
  | none => false
  | some tile =>
    if sp.type = SelType.swap && isTileFrozen tile.id frozenTiles then false
    else true

/-- powerUps.ts addPickedTile: re-picking an already picked cell is a
no-op, otherwise append the cell. -/
def addPickedTile (sp : SelectingPowerUp) (cell : CellRef) : SelectingPowerUp :=
if sp.picked.any (fun p => p.row = cell.row ∧ p.col = cell.col) then sp
else { sp with picked := sp.picked ++ [cell] }

/-- powerUps.ts isSelectionComplete: picked.length >= required. -/
def isSelectionComplete (sp : SelectingPowerUp) : Bool :=
sp.required ≤ sp.picked.length

/-! ## Game session state (GameBoard.tsx component state) -/

/-- A history snapshot as handleMove saves it; loaded snapshots may lack
the power-up substate and the generated-levels list, hence the Options.
The saved grid is the pre-move grid whose tiles already had their
transient flags cleared (the row copies are shallow, so the flag reset
reached them before the copy was taken). -/
structure Snapshot where
grid : GridF
score : Rat
nextId : Nat
powerUpState : Option PUState
generatedPowerUpLevels : Option (List Int)

/-- The mutable component state of the first GameBoard component, together
with the storage-backed flags it consults synchronously
(hasFinalizedGame, canUndoAfterGameOver, the high score). -/
structure SessionState where
grid : GridF
nextId : Nat
score : Rat
isGameOver : Bool
previousState : Option Snapshot
undoHistory : List Snapshot
canUndo : Bool
wasRestartedViaHold : Bool
preRestartState : Option Snapshot
localPendingScore : Option Rat
scoreHasBeenSaved : Bool
highestTileReached : Int
generatedPowerUpLevels : List Int
powerUpState : PUState
finalized : Bool
canUndoAfterGameOverFlag : Bool
highScore : Rat

/-- GameBoard.tsx getHighestTileLevel: maximum tile level, at least 1. -/
def getHighestTileLevel (g : GridF) : Int :=
cells16.foldl
  (fun highest rc =>
    match g rc.1 rc.2 with
    | some tile => if highest < tile.level then tile.level else highest
    | none => highest)
  1

/-- GameBoard.tsx canMove: an empty cell, or a right or down neighbor the
current tile can merge with. -/
def canMove (g : GridF) (frozenTiles : FrozenMap) : Bool :=
decide (0 < (getEmptyCells g).length) ||
cells16.any (fun rc =>
  match g rc.1 rc.2 with
  | none => false
  | some currentTile =>
    (decide (rc.2 < 3) && (match g rc.1 (rc.2 + 1) with
      | some t => canMerge currentTile t frozenTiles
      | none => false)) ||
    (decide (rc.1 < 3) && (match g (rc.1 + 1) rc.2 with
      | some t => canMerge currentTile t frozenTiles
      | none => false)))

/-- GameBoard.tsx checkGameOver. -/
def checkGameOver (g : GridF) (frozenTiles : FrozenMap) : Bool :=
!canMove g frozenTiles

/-- The Math.random driven and environment-backed inputs of one handleMove
call: the spawn cell index draw, the spawned tile draw, the power-up a
generation would produce, and the transient isUndoing ref value. -/
structure Env where
spawnIdx : Nat
spawnLevel : Int
spawnIsJoker : Bool
newPowerUp : PowerUp
isUndoing : Bool

/-- GameBoard.tsx spawnRandomTile: no-op on a full grid, else write a fresh
justSpawned tile into the drawn empty cell and advance the id counter. -/
def spawnRandomTile (g : GridF) (nextId : Nat) (env : Env) : GridF × Nat :=
match getEmptyCells g with
| [] => (g, nextId)
| cell0 :: restCells =>
  let cells := cell0 :: restCells
  let cell := cells.get ⟨env.spawnIdx % cells.length, Nat.mod_lt _ (Nat.succ_pos _)⟩
  (writeCell g cell.1 cell.2
    (some ⟨nextId, env.spawnLevel, cell.1, cell.2, false, false, true, env.spawnIsJoker⟩),
    nextId + 1)

/-- The snapshot handleMove saves before mutating state: the flag-cleared
pre-move grid, score, id counter, a deep copy of the power-up state, and
the per-rank generated set. -/
def mkSnapshot (s : SessionState) : Snapshot :=
⟨clearFlagsGrid s.grid, s.score, s.nextId, some s.powerUpState, some s.generatedPowerUpLevels⟩

/-- The undo-history push of handleMove: append the snapshot, then keep
only the newest max(2, extraUndos + 2) entries (Array.slice(-maxStates)). -/
def pushUndoHistory (hist : List Snapshot) (extraUndos : Nat) (snap : Snapshot) : List Snapshot :=
let newHistory := hist ++ [snap]
let maxStates := max 2 (extraUndos + 2)
if maxStates < newHistory.length then newHistory.drop (newHistory.length - maxStates)
else newHistory

/-- GameBoard.tsx handleMove as a pure state transformer. Blocked while a
selection locks input. On a successful move: save the snapshot as
previousState, push it onto the capped undo history, spawn unless
slow-motion is active, enable baseline undo, run the power-up generation
rule on a strictly new highest rank, decrement freeze counters and the
slow-motion counter, clear the restart-undo state, and set the game-over
flag when the post-move board admits no move. The game-over test reads the
frozenTiles the handler closed over, that is the pre-decrement map. The
leaderboard qualification check is asynchronous and is not part of the
synchronous transition; the high-score update uses the closed-over
pre-move score, as the source does. On moved = false nothing is mutated
except that the transient tile flags were already cleared in place through
the shared tile references. -/
def handleMove (dir : Dir) (env : Env) (s : SessionState) : SessionState :=
if s.powerUpState.inputLocked then s else
let R := resolveMove dir s.grid s.powerUpState.frozenTiles
if R.moved then
  let snap := mkSnapshot s
  let hist := pushUndoHistory s.undoHistory s.powerUpState.extraUndos snap
  let spawned :=
    if 0 < s.powerUpState.slowMotionTurns then (R.grid, s.nextId)
    else spawnRandomTile R.grid s.nextId env
  let finalGrid := spawned.1
  let currentHighest := getHighestTileLevel finalGrid
  let isNewHighest := decide (s.highestTileReached < currentHighest)
  let alreadyGenerated := decide (currentHighest ∈ s.generatedPowerUpLevels)
  let generate := isNewHighest && !alreadyGenerated && !env.isUndoing &&
    shouldGeneratePowerUp s.powerUpState.powerUps s.highestTileReached currentHighest
  let pu1 :=
    if generate then
      { s.powerUpState with powerUps := s.powerUpState.powerUps ++ [env.newPowerUp] }
    else s.powerUpState
  let pu2 :=
    { pu1 with
      frozenTiles := updateFrozenTiles pu1.frozenTiles,
      slowMotionTurns := pu1.slowMotionTurns - 1 }
  let gameOver := checkGameOver finalGrid s.powerUpState.frozenTiles
  { s with
    grid := finalGrid,
    nextId := spawned.2,
    score := s.score + R.scoreDelta,
    previousState := some snap,
    undoHistory := hist,
    canUndo := true,
    highestTileReached := if isNewHighest then currentHighest else s.highestTileReached,
    generatedPowerUpLevels :=
      if generate then s.generatedPowerUpLevels ++ [currentHighest]
      else s.generatedPowerUpLevels,
    powerUpState := pu2,
    wasRestartedViaHold := false,
    preRestartState := if s.wasRestartedViaHold then none else s.preRestartState,
    isGameOver := if gameOver then true else s.isGameOver,
    canUndoAfterGameOverFlag := if gameOver then true else s.canUndoAfterGameOverFlag,
    highScore := if gameOver && decide (s.highScore < s.score) then s.score else s.highScore }
else { s with grid := clearFlagsGrid s.grid }

/-- The normal-undo condition of handleUndo: the baseline per-move undo or
the one-shot undo after game over, neither after the score was saved or
the game finalized. -/
def normalUndoAllowedP (s : SessionState) : Bool :=
(s.canUndo && !s.scoreHasBeenSaved && !s.finalized) ||
(s.isGameOver && s.canUndoAfterGameOverFlag && !s.scoreHasBeenSaved && !s.finalized)

/-- handleUndo: some undo state exists. -/
def hasAnyUndoStateP (s : SessionState) : Bool :=
s.previousState.isSome || !s.undoHistory.isEmpty

/-- The extra-undo condition of handleUndo: a positive credit, some undo
state, score not saved, game not finalized. -/
def extraUndoAvailableP (s : SessionState) : Bool :=
decide (0 < s.powerUpState.extraUndos) && hasAnyUndoStateP s &&
!s.scoreHasBeenSaved && !s.finalized

/-- GameBoard.tsx handleUndo as a pure state transformer. An extra undo is
preferred whenever available and decrements the credit first. The restart
branch restores the pre-restart state. Otherwise: an extra undo with a
non-empty history restores and pops the FIRST (oldest) history entry and
keeps the current power-up state; a baseline undo restores previousState,
restores the saved power-up state while capping extraUndos at the current
value, and clears previousState, the history, and the baseline flag. The
deferred history clear the source schedules after an extra undo tests the
closed-over pre-decrement credit, which is positive in that branch, so it
never fires and is a no-op here. -/
def handleUndo (s : SessionState) : SessionState :=
if s.powerUpState.inputLocked then s else
if normalUndoAllowedP s || extraUndoAvailableP s then
  let usingExtraUndo := extraUndoAvailableP s
  let pu0 :=
    if usingExtraUndo then
      { s.powerUpState with extraUndos := s.powerUpState.extraUndos - 1 }
    else s.powerUpState
  match s.wasRestartedViaHold, s.preRestartState with
  | true, some pre =>
    { s with
      grid := pre.grid,
      score := pre.score,
      nextId := pre.nextId,
      preRestartState := none,
      wasRestartedViaHold := false,
      canUndo := if usingExtraUndo then s.canUndo else false,
      isGameOver := false,
      localPendingScore := none,
      scoreHasBeenSaved := false,
      highestTileReached := getHighestTileLevel pre.grid,
      canUndoAfterGameOverFlag := false,
      powerUpState := pu0 }
  | _, _ =>
    if s.previousState.isSome || !s.undoHistory.isEmpty then
      let restoreChoice : Option (Snapshot × List Snapshot) :=
        match usingExtraUndo, s.undoHistory with
        | true, a :: rest => some (a, rest)
        | _, _ =>
          match s.previousState with
          | some p => some (p, s.undoHistory)
          | none => none
      match restoreChoice with
      | none => { s with powerUpState := pu0 }
      | some (stateToRestore, histAfterPop) =>
        let pu1 :=
          if usingExtraUndo then pu0
          else
            match stateToRestore.powerUpState with
            | some ps => { ps with extraUndos := min ps.extraUndos s.powerUpState.extraUndos }
            | none => pu0
        { s with
          grid := stateToRestore.grid,
          score := stateToRestore.score,
          nextId := stateToRestore.nextId,
          generatedPowerUpLevels :=
            match stateToRestore.generatedPowerUpLevels with
            | some l => l
            | none => s.generatedPowerUpLevels,
          powerUpState := pu1,
          previousState := if usingExtraUndo then s.previousState else none,
          undoHistory := if usingExtraUndo then histAfterPop else [],
          canUndo := if usingExtraUndo then s.canUndo else false,
          isGameOver := false,
          localPendingScore := none,
          scoreHasBeenSaved := false,
          canUndoAfterGameOverFlag := false }
    else { s with powerUpState := pu0 }
else s

/-- GameBoard.tsx handleUsePowerUp: undo banks a credit, slowmo sets the
5-turn counter, the interactive three arm a selection session and lock
input without leaving inventory yet; unknown ids and game over are
no-ops. -/
def handleUsePowerUp (powerUpId : Nat) (s : SessionState) : SessionState :=
match s.powerUpState.powerUps.find? (fun p => p.id == powerUpId) with
| none => s
| some powerUp =>
  if s.isGameOver then s else
  match powerUp.type with
  | .undo =>
    { s with powerUpState :=
      { s.powerUpState with
        powerUps := removePowerUp s.powerUpState.powerUps powerUpId,
        extraUndos := s.powerUpState.extraUndos + 1 } }
  | .slowmo =>
    { s with powerUpState :=
      { s.powerUpState with
        powerUps := removePowerUp s.powerUpState.powerUps powerUpId,
        slowMotionTurns := 5 } }
  | .freeze =>
    { s with powerUpState :=
      { s.powerUpState with
        selectingPowerUp := some (startPowerUpSelection .freeze powerUpId),
        inputLocked := true } }
  | .swap =>
    { s with powerUpState :=
      { s.powerUpState with
        selectingPowerUp := some (startPowerUpSelection .swap powerUpId),
        inputLocked := true } }
  | .delete =>
    { s with powerUpState :=
      { s.powerUpState with
        selectingPowerUp := some (startPowerUpSelection .delete powerUpId),
        inputLocked := true } }

/-- Assignment newGrid[row][col] = v at Int coordinates; only in-bounds
coordinates are reachable here because every picked cell passed
canPickTile. -/
def writeCellI (g : GridF) (row col : Int) (v : Option Tile) : GridF :=
if 0 ≤ row ∧ row < 4 ∧ 0 ≤ col ∧ col < 4 then writeCell g row.toNat col.toNat v else g

/-- GameBoard.tsx applyPowerUpSelection, run when a selection is complete.
Freeze refuses an already-frozen target (leaving the completed selection
armed), else adds 3 turns via freezeTile and consumes the power-up; delete
clears the picked cell and consumes; swap exchanges the two picked tiles,
updating their row/col fields, and consumes. No freeze-safety check of the
Deadlock Guard is invoked anywhere in this handler. -/
def applyPowerUpSelection (selection : SelectingPowerUp) (s : SessionState) : SessionState :=
match selection.type with
| .freeze =>
  match selection.picked with
  | [cell] =>
    match gridGetI s.grid cell.row cell.col with
    | some tile =>
      if isTileFrozen tile.id s.powerUpState.frozenTiles then s
      else
        { s with powerUpState :=
          { s.powerUpState with
            powerUps := removePowerUp s.powerUpState.powerUps selection.powerUpId,
            frozenTiles := freezeTile s.powerUpState.frozenTiles tile.id 3,
            selectingPowerUp := none,
            inputLocked := false } }
    | none => s
  | _ => s
| .delete =>
  match selection.picked with
  | [cell] =>
    match gridGetI s.grid cell.row cell.col with
    | some _ =>
      { s with
        grid := writeCellI s.grid cell.row cell.col none,
        powerUpState :=
        { s.powerUpState with
          powerUps := removePowerUp s.powerUpState.powerUps selection.powerUpId,
          selectingPowerUp := none,
          inputLocked := false } }
    | none => s
  | _ => s
| .swap =>
  match selection.picked with
  | [first, second] =>
    match gridGetI s.grid first.row first.col, gridGetI s.grid second.row second.col with
    | some firstTile, some secondTile =>
      let g1 := writeCellI s.grid first.row first.col
        (some { secondTile with row := first.row.toNat, col := first.col.toNat })
      let g2 := writeCellI g1 second.row second.col
        (some { firstTile with row := second.row.toNat, col := second.col.toNat })
      { s with
        grid := g2,
        powerUpState :=
        { s.powerUpState with
          powerUps := removePowerUp s.powerUpState.powerUps selection.powerUpId,
          selectingPowerUp := none,
          inputLocked := false } }
    | _, _ => s
  | _ => s

/-- GameBoard.tsx handleTileSelection: reject picks that fail canPickTile
with no state change, else record the pick and, when the selection is
complete, apply it. -/
def handleTileSelection (row col : Int) (s : SessionState) : SessionState :=
match s.powerUpState.selectingPowerUp with
| none => s
| some selectingPowerUp =>
  if !canPickTile row col s.grid (some selectingPowerUp) s.powerUpState.frozenTiles then s
  else
    let newSelection := addPickedTile selectingPowerUp ⟨row, col⟩
    let s1 := { s with powerUpState :=
      { s.powerUpState with selectingPowerUp := some newSelection } }
    if isSelectionComplete newSelection then applyPowerUpSelection newSelection s1 else s1

/-- GameBoard.tsx handleCancelSelection: disarm and release the input lock. -/
def handleCancelSelection (s : SessionState) : SessionState :=
{ s with powerUpState :=
  { s.powerUpState with selectingPowerUp := none, inputLocked := false } }

/-! ## Specification-side predicates and invariants -/

/-- Merge compatibility in the words of the specification, extended by the
merged-this-pass flags the implementation also consults: the amended
compatibility notion for the deadlock characterisation. -/
def specMergeReady (t1 t2 : Tile) (frozenTiles : FrozenMap) : Prop :=
t1.merged = false ∧ t2.merged = false ∧
isTileFrozen t1.id frozenTiles = false ∧ isTileFrozen t2.id frozenTiles = false ∧
((t1.isJoker = true ∧ t2.isJoker = false) ∨ (t2.isJoker = true ∧ t1.isJoker = false) ∨
 (t1.isJoker = false ∧ t2.isJoker = false ∧ t1.level = t2.level))

/-- Merge compatibility exactly as the claim words it: same non-Joker
level, or exactly one Joker, with neither tile frozen — no condition on
the merged-this-pass flags. -/
def claimMergeCompatible (t1 t2 : Tile) (frozenTiles : FrozenMap) : Prop :=
isTileFrozen t1.id frozenTiles = false ∧ isTileFrozen t2.id frozenTiles = false ∧
((t1.isJoker = true ∧ t2.isJoker = false) ∨ (t2.isJoker = true ∧ t1.isJoker = false) ∨
 (t1.isJoker = false ∧ t2.isJoker = false ∧ t1.level = t2.level))

/-- (r2, c2) is a 4-neighbor of (r, c). -/
def isNeighbor4 (r c r2 c2 : Nat) : Prop :=
(r2 = r ∧ c2 = c + 1) ∨ (r2 = r + 1 ∧ c2 = c) ∨ (r = r2 ∧ c = c2 + 1) ∨ (r = r2 + 1 ∧ c = c2)

/-- The grid has no empty cell. -/
def noEmptyCell (g : GridF) : Prop :=
∀ r c : Fin 4, (g r.1 c.1).isSome = true

/-- Some 4-neighbor pair of tiles is merge-compatible (amended notion). -/
def compatPairExists (g : GridF) (frozenTiles : FrozenMap) : Prop :=
∃ (r c r2 c2 : Fin 4) (t1 t2 : Tile),
  isNeighbor4 r.1 c.1 r2.1 c2.1 ∧ g r.1 c.1 = some t1 ∧ g r2.1 c2.1 = some t2 ∧
  specMergeReady t1 t2 frozenTiles

/-- The amended history bound: the stack never exceeds 2 plus the current
extra-undo credit count; after a hold-restart (which cleared the stack)
the stack is empty until the next move. -/
def histInv (s : SessionState) : Prop :=
s.undoHistory.length ≤ s.powerUpState.extraUndos + 2 ∧
(s.wasRestartedViaHold = true → s.undoHistory = [])

/-! ## Concrete example states used by witnesses and counterexamples -/

/-- A fresh session over an empty board. -/
def baseState : SessionState :=
{ grid := emptyGrid
, nextId := 3
, score := 0
, isGameOver := false
, previousState := none
, undoHistory := []
, canUndo := false
, wasRestartedViaHold := false
, preRestartState := none
, localPendingScore := none
, scoreHasBeenSaved := false
, highestTileReached := 1
, generatedPowerUpLevels := []
, powerUpState := initializePowerUpState
, finalized := false
, canUndoAfterGameOverFlag := false
, highScore := 0 }

/-- Full board whose only compatible pair are the two level-1 tiles at
(0,0) and (0,1); freezing either of them deadlocks the board. -/
def gridC1 : GridF := fun r c =>
match r, c with
| 0, 0 => some (mkTile 1 1 0 0)
| 0, 1 => some (mkTile 2 1 0 1)
| 0, 2 => some (mkTile 3 2 0 2)
| 0, 3 => some (mkTile 4 3 0 3)
| 1, 0 => some (mkTile 5 2 1 0)
| 1, 1 => some (mkTile 6 3 1 1)
| 1, 2 => some (mkTile 7 4 1 2)
| 1, 3 => some (mkTile 8 2 1 3)
| 2, 0 => some (mkTile 9 3 2 0)
| 2, 1 => some (mkTile 10 2 2 1)
| 2, 2 => some (mkTile 11 3 2 2)
| 2, 3 => some (mkTile 12 4 2 3)
| 3, 0 => some (mkTile 13 4 3 0)
| 3, 1 => some (mkTile 14 3 3 1)
| 3, 2 => some (mkTile 15 2 3 2)
| 3, 3 => some (mkTile 16 3 3 3)
| _, _ => none

/-- A completed Freeze selection that picked the tile at (0,0). -/
def selectionC1 : SelectingPowerUp := ⟨.freeze, 1, [⟨0, 0⟩], 5⟩

/-- Session holding one Freeze power-up with that selection completed. -/
def stateC1 : SessionState :=
{ baseState with
  grid := gridC1
, nextId := 17
, highestTileReached := 5
, powerUpState :=
  { initializePowerUpState with
    powerUps := [⟨5, .freeze⟩]
  , selectingPowerUp := some selectionC1
  , inputLocked := true } }

/-- Board with a single hole at (0,3): a right move shifts row 0 and the
spawn fills (0,0), leaving a full board with no compatible pair. -/
def gridC2 : GridF := fun r c =>
match r, c with
| 0, 0 => some (mkTile 1 2 0 0)
| 0, 1 => some (mkTile 2 1 0 1)
| 0, 2 => some (mkTile 3 2 0 2)
| 0, 3 => none
| 1, 0 => some (mkTile 5 2 1 0)
| 1, 1 => some (mkTile 6 1 1 1)
| 1, 2 => some (mkTile 7 2 1 2)
| 1, 3 => some (mkTile 8 1 1 3)
| 2, 0 => some (mkTile 9 1 2 0)
| 2, 1 => some (mkTile 10 2 2 1)
| 2, 2 => some (mkTile 11 1 2 2)
| 2, 3 => some (mkTile 12 2 2 3)
| 3, 0 => some (mkTile 13 2 3 0)
| 3, 1 => some (mkTile 14 1 3 1)
| 3, 2 => some (mkTile 15 2 3 2)
| 3, 3 => some (mkTile 16 1 3 3)
| _, _ => none

/-- The tile at (3,0) is frozen for two more turns. -/
def frozenC2 : FrozenMap := fun id => if id = 13 then some 2 else none

/-- Session about to make the move that fills the board. -/
def stateC2 : SessionState :=
{ baseState with
  grid := gridC2
, nextId := 17
, highestTileReached := 5
, powerUpState := { initializePowerUpState with frozenTiles := frozenC2 } }

/-- Spawn draw: first empty cell, a level-1 non-Joker tile. -/
def envC2 : Env := ⟨0, 1, false, ⟨99, .undo⟩, false⟩

/-- Single level-5 tile at (0,0). -/
def gridC3 : GridF := fun r c =>
match r, c with
| 0, 0 => some (mkTile 1 5 0 0)
| _, _ => none

/-- Session with the single-tile board; the highest rank was already 5, so
no move in the counterexample run ever generates a power-up. -/
def stateC3 : SessionState :=
{ baseState with grid := gridC3, highestTileReached := 5 }

/-- After two successful right moves from stateC3. -/
def stateC3b : SessionState :=
handleMove .right envC2 (handleMove .right envC2 stateC3)

/-- A power-up state holding one Freeze power-up in inventory. -/
def puC4 : PUState :=
{ initializePowerUpState with powerUps := [⟨1, .freeze⟩] }

/-- Snapshot taken while the inventory still held that power-up. -/
def snapC4 : Snapshot := ⟨emptyGrid, 0, 3, some puC4, some []⟩

/-- Session whose inventory is now empty but whose previousState snapshot
captured the old inventory; the baseline undo is armed. -/
def stateC4 : SessionState :=
{ baseState with previousState := some snapC4, canUndo := true }

/-- Older history snapshot, id counter 100. -/
def snapC5a : Snapshot := ⟨emptyGrid, 0, 100, none, none⟩

/-- Newer history snapshot, id counter 200. -/
def snapC5b : Snapshot := ⟨emptyGrid, 0, 200, none, none⟩

/-- Session with one extra-undo credit and a two-entry history; snapC5b is
the most recent retained snapshot. -/
def stateC5 : SessionState :=
{ baseState with
  previousState := some snapC5b
, undoHistory := [snapC5a, snapC5b]
, canUndo := true
, powerUpState := { initializePowerUpState with extraUndos := 1 } }

/-- A Joker tile. -/
def tileJokerC6 : Tile := ⟨1, -1, 0, 0, false, false, false, true⟩

/-- A plain rank-4 tile. -/
def tileFourC6 : Tile := mkTile 2 4 0 1

/-- Board with a frozen tile at (1,1) and a movable tile above it. -/
def gridC7 : GridF := fun r c =>
match r, c with
| 1, 1 => some (mkTile 1 3 1 1)
| 0, 1 => some (mkTile 2 3 0 1)
| _, _ => none

/-- The tile with id 1 is frozen for three turns. -/
def frozenC7 : FrozenMap := fun id => if id = 1 then some 3 else none

/-- Full board of level-1 tiles that all carry the merged-this-pass flag:
the code reports no possible move although adjacent equal-level unfrozen
pairs exist. -/
def gridC8 : GridF := fun r c =>
if r < 4 ∧ c < 4 then some ⟨4 * r + c + 1, 1, r, c, true, false, false, false⟩ else none

/-- An armed freeze selection used by the out-of-bounds pick witness. -/
def selectionC10 : SelectingPowerUp := ⟨.freeze, 1, [], 5⟩

/-! ## Basic lemmas about cells, flags and merges -/

theorem writeCell_of_ne {g : GridF} {r c : Nat} {v : Option Tile} {r' c' : Nat}
    (h : ¬(r' = r ∧ c' = c)) : writeCell g r c v r' c' = g r' c' := by
simp only [writeCell, if_neg h]

theorem writeCell_self (g : GridF) (r c : Nat) (v : Option Tile) :
    writeCell g r c v r c = v := by
simp [writeCell]

theorem clearTileFlags_id (t : Tile) : (clearTileFlags t).id = t.id := rfl

theorem clearTileFlags_idem (t : Tile) : clearTileFlags (clearTileFlags t) = clearTileFlags t := rfl

theorem clearFlagsGrid_idem (g : GridF) : clearFlagsGrid (clearFlagsGrid g) = clearFlagsGrid g := by
funext r c
show ((g r c).map clearTileFlags).map clearTileFlags = (g r c).map clearTileFlags
cases g r c <;> rfl

theorem clearFlagsGrid_some {g : GridF} {r c : Nat} {t : Tile} (h : g r c = some t) :
    clearFlagsGrid g r c = some (clearTileFlags t) := by
show (g r c).map clearTileFlags = _
rw [h]
rfl

theorem canMerge_false_of_frozen₁ {t1 t2 : Tile} {fz : FrozenMap}
    (h : isTileFrozen t1.id fz = true) : canMerge t1 t2 fz = false := by
unfold canMerge
simp [h]

theorem canMerge_false_of_frozen₂ {t1 t2 : Tile} {fz : FrozenMap}
    (h : isTileFrozen t2.id fz = true) : canMerge t1 t2 fz = false := by
unfold canMerge
simp [h]

theorem not_frozen₁_of_canMerge {t1 t2 : Tile} {fz : FrozenMap}
    (h : canMerge t1 t2 fz = true) : isTileFrozen t1.id fz = false := by
cases hf : isTileFrozen t1.id fz
· rfl
· rw [canMerge_false_of_frozen₁ hf] at h
  exact absurd h (by simp)

theorem not_frozen₂_of_canMerge {t1 t2 : Tile} {fz : FrozenMap}
    (h : canMerge t1 t2 fz = true) : isTileFrozen t2.id fz = false := by
cases hf : isTileFrozen t2.id fz
· rfl
· rw [canMerge_false_of_frozen₂ hf] at h
  exact absurd h (by simp)

/-! ## Generic lemmas about the cell fold -/

theorem foldCells_of_not_moved (step : GridF → Nat → Nat → MoveOut)
    (hstep : ∀ g r c, (step g r c).moved = false → step g r c = ⟨g, false, false, 0⟩) :
    ∀ (cells : List (Nat × Nat)) (g : GridF), (foldCells step cells g).moved = false →
    foldCells step cells g = ⟨g, false, false, 0⟩ := by
intro cells
induction cells with
| nil => intro g _; rfl
| cons rc rest ih =>
  intro g h
  simp only [foldCells] at h ⊢
  rw [Bool.or_eq_false_iff] at h
  obtain ⟨h1, h2⟩ := h
  have e1 := hstep g rc.1 rc.2 h1
  rw [e1] at h2 ⊢
  have e2 := ih g h2
  rw [e2]
  simp

theorem foldCells_preserve (step : GridF → Nat → Nat → MoveOut) (P : GridF → Prop)
    (hstep : ∀ g r c, P g → P (step g r c).grid) :
    ∀ (cells : List (Nat × Nat)) (g : GridF), P g → P (foldCells step cells g).grid := by
intro cells
induction cells with
| nil => intro g h; exact h
| cons rc rest ih =>
  intro g h
  simp only [foldCells]
  exact ih _ (hstep g rc.1 rc.2 h)

/-! ## The left block: no-move identity and frozen-cell preservation -/

theorem slideLeft_of_not_moved (fz : FrozenMap) (r : Nat) :
    ∀ (pos : Nat) (g : GridF), (slideLeft fz r pos g).moved = false →
    slideLeft fz r pos g = ⟨g, false, false, 0⟩ := by
intro pos g h
cases pos with
| zero => rfl
| succ p =>
  cases hm : g r (p + 1) with
  | none => simp [slideLeft, hm]
  | some m =>
    cases hn : g r p with
    | none => simp [slideLeft, hm, hn] at h
    | some target =>
      cases hc : canMerge target m fz with
      | true => simp [slideLeft, hm, hn, hc] at h
      | false => simp [slideLeft, hm, hn, hc]

theorem stepLeft_of_not_moved (fz : FrozenMap) :
    ∀ (g : GridF) (r c : Nat), (stepLeft fz g r c).moved = false →
    stepLeft fz g r c = ⟨g, false, false, 0⟩ := by
intro g r c h
cases ht : g r c with
| none => simp [stepLeft, ht]
| some t =>
  cases hf : isTileFrozen t.id fz with
  | true => simp [stepLeft, ht, hf]
  | false =>
    have hs : stepLeft fz g r c = slideLeft fz r c g := by simp [stepLeft, ht, hf]
    rw [hs] at h ⊢
    exact slideLeft_of_not_moved fz r c g h

theorem slideLeft_frozen_preserved {fz : FrozenMap} {r0 c0 : Nat} {t : Tile}
    (ht : isTileFrozen t.id fz = true) :
    ∀ (pos : Nat) (r : Nat) (g : GridF),
    (∀ m, g r pos = some m → isTileFrozen m.id fz = false) →
    g r0 c0 = some t →
    (slideLeft fz r pos g).grid r0 c0 = some t := by
intro pos
induction pos with
| zero => intro r g _ hcell; exact hcell
| succ p ih =>
  intro r g hmov hcell
  cases hm : g r (p + 1) with
  | none => simp [slideLeft, hm, hcell]
  | some m =>
    have hmfree : isTileFrozen m.id fz = false := hmov m hm
    have hne2 : ¬(r0 = r ∧ c0 = p + 1) := by
      rintro ⟨h1, h2⟩
      rw [h1, h2] at hcell
      rw [hcell] at hm
      cases hm
      rw [ht] at hmfree
      cases hmfree
    cases hn : g r p with
    | none =>
      have hne1 : ¬(r0 = r ∧ c0 = p) := by
        rintro ⟨h1, h2⟩
        rw [h1, h2] at hcell
        rw [hcell] at hn
        cases hn
      have hg1 :
          writeCell (writeCell g r p (some { m with col := p })) r (p + 1) none r0 c0 = some t := by
        rw [writeCell_of_ne hne2, writeCell_of_ne hne1]
        exact hcell
      have hg1m : ∀ m2,
          writeCell (writeCell g r p (some { m with col := p })) r (p + 1) none r p = some m2 →
          isTileFrozen m2.id fz = false := by
        intro m2 hm2
        rw [writeCell_of_ne (by intro hq; exact absurd hq.2 (Nat.ne_of_lt (Nat.lt_succ_self p))),
          writeCell_self] at hm2
        cases hm2
        exact hmfree
      simp only [slideLeft, hm, hn]
      exact ih r _ hg1m hg1
    | some target =>
      cases hc : canMerge target m fz with
      | false => simp [slideLeft, hm, hn, hc, hcell]
      | true =>
        have hne1 : ¬(r0 = r ∧ c0 = p) := by
          rintro ⟨h1, h2⟩
          rw [h1, h2] at hcell
          rw [hcell] at hn
          cases hn
          have := not_frozen₁_of_canMerge hc
          rw [ht] at this
          cases this
        simp only [slideLeft, hm, hn, hc, if_true]
        show writeCell (writeCell g r p (some (mergedTile target m))) r (p + 1) none r0 c0 = some t
        rw [writeCell_of_ne hne2, writeCell_of_ne hne1]
        exact hcell

theorem stepLeft_frozen_preserved {fz : FrozenMap} {r0 c0 : Nat} {t : Tile}
    (ht : isTileFrozen t.id fz = true) :
    ∀ (g : GridF) (r c : Nat), g r0 c0 = some t →
    (stepLeft fz g r c).grid r0 c0 = some t := by
intro g r c hcell
cases hx : g r c with
| none => simp [stepLeft, hx, hcell]
| some x =>
  cases hf : isTileFrozen x.id fz with
  | true => simp [stepLeft, hx, hf, hcell]
  | false =>
    have hs : stepLeft fz g r c = slideLeft fz r c g := by simp [stepLeft, hx, hf]
    rw [hs]
    refine slideLeft_frozen_preserved ht c r g ?_ hcell
    intro m hm
    rw [hx] at hm
    cases hm
    exact hf

/-! ## The up block -/

theorem slideUp_of_not_moved (fz : FrozenMap) (c : Nat) :
    ∀ (pos : Nat) (g : GridF), (slideUp fz c pos g).moved = false →
    slideUp fz c pos g = ⟨g, false, false, 0⟩ := by
intro pos g h
cases pos with
| zero => rfl
| succ p =>
  cases hm : g (p + 1) c with
  | none => simp [slideUp, hm]
  | some m =>
    cases hn : g p c with
    | none => simp [slideUp, hm, hn] at h
    | some target =>
      cases hc : canMerge target m fz with
      | true => simp [slideUp, hm, hn, hc] at h
      | false => simp [slideUp, hm, hn, hc]

theorem stepUp_of_not_moved (fz : FrozenMap) :
    ∀ (g : GridF) (r c : Nat), (stepUp fz g r c).moved = false →
    stepUp fz g r c = ⟨g, false, false, 0⟩ := by
intro g r c h
cases ht : g r c with
| none => simp [stepUp, ht]
| some t =>
  cases hf : isTileFrozen t.id fz with
  | true => simp [stepUp, ht, hf]
  | false =>
    have hs : stepUp fz g r c = slideUp fz c r g := by simp [stepUp, ht, hf]
    rw [hs] at h ⊢
    exact slideUp_of_not_moved fz c r g h

theorem slideUp_frozen_preserved {fz : FrozenMap} {r0 c0 : Nat} {t : Tile}
    (ht : isTileFrozen t.id fz = true) :
    ∀ (pos : Nat) (c : Nat) (g : GridF),
    (∀ m, g pos c = some m → isTileFrozen m.id fz = false) →
    g r0 c0 = some t →
    (slideUp fz c pos g).grid r0 c0 = some t := by
intro pos
induction pos with
| zero => intro c g _ hcell; exact hcell
| succ p ih =>
  intro c g hmov hcell
  cases hm : g (p + 1) c with
  | none => simp [slideUp, hm, hcell]
  | some m =>
    have hmfree : isTileFrozen m.id fz = false := hmov m hm
    have hne2 : ¬(r0 = p + 1 ∧ c0 = c) := by
      rintro ⟨h1, h2⟩
      rw [h1, h2] at hcell
      rw [hcell] at hm
      cases hm
      rw [ht] at hmfree
      cases hmfree
    cases hn : g p c with
    | none =>
      have hne1 : ¬(r0 = p ∧ c0 = c) := by
        rintro ⟨h1, h2⟩
        rw [h1, h2] at hcell
        rw [hcell] at hn
        cases hn
      have hg1 :
          writeCell (writeCell g p c (some { m with row := p })) (p + 1) c none r0 c0 = some t := by
        rw [writeCell_of_ne hne2, writeCell_of_ne hne1]
        exact hcell
      have hg1m : ∀ m2,
          writeCell (writeCell g p c (some { m with row := p })) (p + 1) c none p c = some m2 →
          isTileFrozen m2.id fz = false := by
        intro m2 hm2
        rw [writeCell_of_ne (by intro hq; exact absurd hq.1 (Nat.ne_of_lt (Nat.lt_succ_self p))),
          writeCell_self] at hm2
        cases hm2
        exact hmfree
      simp only [slideUp, hm, hn]
      exact ih c _ hg1m hg1
    | some target =>
      cases hc : canMerge target m fz with
      | false => simp [slideUp, hm, hn, hc, hcell]
      | true =>
        have hne1 : ¬(r0 = p ∧ c0 = c) := by
          rintro ⟨h1, h2⟩
          rw [h1, h2] at hcell
          rw [hcell] at hn
          cases hn
          have := not_frozen₁_of_canMerge hc
          rw [ht] at this
          cases this
        simp only [slideUp, hm, hn, hc, if_true]
        show writeCell (writeCell g p c (some (mergedTile target m))) (p + 1) c none r0 c0 = some t
        rw [writeCell_of_ne hne2, writeCell_of_ne hne1]
        exact hcell

theorem stepUp_frozen_preserved {fz : FrozenMap} {r0 c0 : Nat} {t : Tile}
    (ht : isTileFrozen t.id fz = true) :
    ∀ (g : GridF) (r c : Nat), g r0 c0 = some t →
    (stepUp fz g r c).grid r0 c0 = some t := by
intro g r c hcell
cases hx : g r c with
| none => simp [stepUp, hx, hcell]
| some x =>
  cases hf : isTileFrozen x.id fz with
  | true => simp [stepUp, hx, hf, hcell]
  | false =>
    have hs : stepUp fz g r c = slideUp fz c r g := by simp [stepUp, hx, hf]
    rw [hs]
    refine slideUp_frozen_preserved ht r c g ?_ hcell
    intro m hm
    rw [hx] at hm
    cases hm
    exact hf

/-! ## The right block -/

theorem slideRight_of_not_moved (fz : FrozenMap) (r : Nat) :
    ∀ (fuel pos : Nat) (g : GridF), (slideRight fz r fuel pos g).moved = false →
    slideRight fz r fuel pos g = ⟨g, false, false, 0⟩ := by
intro fuel pos g h
cases fuel with
| zero => rfl
| succ f =>
  by_cases hlt : pos < 3
  · cases hm : g r pos with
    | none => simp [slideRight, hlt, hm]
    | some m =>
      cases hn : g r (pos + 1) with
      | none => simp [slideRight, hlt, hm, hn] at h
      | some target =>
        cases hc : canMerge target m fz with
        | true => simp [slideRight, hlt, hm, hn, hc] at h
        | false => simp [slideRight, hlt, hm, hn, hc]
  · simp [slideRight, hlt]

theorem stepRight_of_not_moved (fz : FrozenMap) :
    ∀ (g : GridF) (r c : Nat), (stepRight fz g r c).moved = false →
    stepRight fz g r c = ⟨g, false, false, 0⟩ := by
intro g r c h
cases ht : g r c with
| none => simp [stepRight, ht]
| some t =>
  cases hf : isTileFrozen t.id fz with
  | true => simp [stepRight, ht, hf]
  | false =>
    have hs : stepRight fz g r c = slideRight fz r (3 - c) c g := by simp [stepRight, ht, hf]
    rw [hs] at h ⊢
    exact slideRight_of_not_moved fz r (3 - c) c g h

theorem slideRight_frozen_preserved {fz : FrozenMap} {r0 c0 : Nat} {t : Tile}
    (ht : isTileFrozen t.id fz = true) :
    ∀ (fuel : Nat) (pos : Nat) (r : Nat) (g : GridF),
    (∀ m, g r pos = some m → isTileFrozen m.id fz = false) →
    g r0 c0 = some t →
    (slideRight fz r fuel pos g).grid r0 c0 = some t := by
intro fuel
induction fuel with
| zero => intro pos r g _ hcell; exact hcell
| succ f ih =>
  intro pos r g hmov hcell
  by_cases hlt : pos < 3
  · cases hm : g r pos with
    | none => simp [slideRight, hlt, hm, hcell]
    | some m =>
      have hmfree : isTileFrozen m.id fz = false := hmov m hm
      have hne1 : ¬(r0 = r ∧ c0 = pos) := by
        rintro ⟨h1, h2⟩
        rw [h1, h2] at hcell
        rw [hcell] at hm
        cases hm
        rw [ht] at hmfree
        cases hmfree
      cases hn : g r (pos + 1) with
      | none =>
        have hne2 : ¬(r0 = r ∧ c0 = pos + 1) := by
          rintro ⟨h1, h2⟩
          rw [h1, h2] at hcell
          rw [hcell] at hn
          cases hn
        have hg1 :
            writeCell (writeCell g r (pos + 1) (some { m with col := pos + 1 })) r pos none r0 c0 =
            some t := by
          rw [writeCell_of_ne hne1, writeCell_of_ne hne2]
          exact hcell
        have hg1m : ∀ m2,
            writeCell (writeCell g r (pos + 1) (some { m with col := pos + 1 })) r pos none
              r (pos + 1) = some m2 →
            isTileFrozen m2.id fz = false := by
          intro m2 hm2
          rw [writeCell_of_ne
              (by intro hq; exact absurd hq.2 (Nat.ne_of_gt (Nat.lt_succ_self pos))),
            writeCell_self] at hm2
          cases hm2
          exact hmfree
        simp only [slideRight, hlt, if_true, hm, hn]
        exact ih (pos + 1) r _ hg1m hg1
      | some target =>
        cases hc : canMerge target m fz with
        | false => simp [slideRight, hlt, hm, hn, hc, hcell]
        | true =>
          have hne2 : ¬(r0 = r ∧ c0 = pos + 1) := by
            rintro ⟨h1, h2⟩
            rw [h1, h2] at hcell
            rw [hcell] at hn
            cases hn
            have := not_frozen₁_of_canMerge hc
            rw [ht] at this
            cases this
          simp only [slideRight, hlt, if_true, hm, hn, hc]
          show writeCell (writeCell g r (pos + 1) (some (mergedTile target m))) r pos none r0 c0 =
            some t
          rw [writeCell_of_ne hne1, writeCell_of_ne hne2]
          exact hcell
  · simp [slideRight, hlt, hcell]

theorem stepRight_frozen_preserved {fz : FrozenMap} {r0 c0 : Nat} {t : Tile}
    (ht : isTileFrozen t.id fz = true) :
    ∀ (g : GridF) (r c : Nat), g r0 c0 = some t →
    (stepRight fz g r c).grid r0 c0 = some t := by
intro g r c hcell
cases hx : g r c with
| none => simp [stepRight, hx, hcell]
| some x =>
  cases hf : isTileFrozen x.id fz with
  | true => simp [stepRight, hx, hf, hcell]
  | false =>
    have hs : stepRight fz g r c = slideRight fz r (3 - c) c g := by simp [stepRight, hx, hf]
    rw [hs]
    refine slideRight_frozen_preserved ht (3 - c) c r g ?_ hcell
    intro m hm
    rw [hx] at hm
    cases hm
    exact hf

/-! ## The down block -/

theorem slideDown_of_not_moved (fz : FrozenMap) (c : Nat) :
    ∀ (fuel pos : Nat) (g : GridF), (slideDown fz c fuel pos g).moved = false →
    slideDown fz c fuel pos g = ⟨g, false, false, 0⟩ := by
intro fuel pos g h
cases fuel with
| zero => rfl
| succ f =>
  by_cases hlt : pos < 3
  · cases hm : g pos c with
    | none => simp [slideDown, hlt, hm]
    | some m =>
      cases hn : g (pos + 1) c with
      | none => simp [slideDown, hlt, hm, hn] at h
      | some target =>
        cases hc : canMerge target m fz with
        | true => simp [slideDown, hlt, hm, hn, hc] at h
        | false => simp [slideDown, hlt, hm, hn, hc]
  · simp [slideDown, hlt]

theorem stepDown_of_not_moved (fz : FrozenMap) :
    ∀ (g : GridF) (r c : Nat), (stepDown fz g r c).moved = false →
    stepDown fz g r c = ⟨g, false, false, 0⟩ := by
intro g r c h
cases ht : g r c with
| none => simp [stepDown, ht]
| some t =>
  cases hf : isTileFrozen t.id fz with
  | true => simp [stepDown, ht, hf]
  | false =>
    have hs : stepDown fz g r c = slideDown fz c (3 - r) r g := by simp [stepDown, ht, hf]
    rw [hs] at h ⊢
    exact slideDown_of_not_moved fz c (3 - r) r g h

theorem slideDown_frozen_preserved {fz : FrozenMap} {r0 c0 : Nat} {t : Tile}
    (ht : isTileFrozen t.id fz = true) :
    ∀ (fuel : Nat) (pos : Nat) (c : Nat) (g : GridF),
    (∀ m, g pos c = some m → isTileFrozen m.id fz = false) →
    g r0 c0 = some t →
    (slideDown fz c fuel pos g).grid r0 c0 = some t := by
intro fuel
induction fuel with
| zero => intro pos c g _ hcell; exact hcell
| succ f ih =>
  intro pos c g hmov hcell
  by_cases hlt : pos < 3
  · cases hm : g pos c with
    | none => simp [slideDown, hlt, hm, hcell]
    | some m =>
      have hmfree : isTileFrozen m.id fz = false := hmov m hm
      have hne1 : ¬(r0 = pos ∧ c0 = c) := by
        rintro ⟨h1, h2⟩
        rw [h1, h2] at hcell
        rw [hcell] at hm
        cases hm
        rw [ht] at hmfree
        cases hmfree
      cases hn : g (pos + 1) c with
      | none =>
        have hne2 : ¬(r0 = pos + 1 ∧ c0 = c) := by
          rintro ⟨h1, h2⟩
          rw [h1, h2] at hcell
          rw [hcell] at hn
          cases hn
        have hg1 :
            writeCell (writeCell g (pos + 1) c (some { m with row := pos + 1 })) pos c none r0 c0 =
            some t := by
          rw [writeCell_of_ne hne1, writeCell_of_ne hne2]
          exact hcell
        have hg1m : ∀ m2,
            writeCell (writeCell g (pos + 1) c (some { m with row := pos + 1 })) pos c none
              (pos + 1) c = some m2 →
            isTileFrozen m2.id fz = false := by
          intro m2 hm2
          rw [writeCell_of_ne
              (by intro hq; exact absurd hq.1 (Nat.ne_of_gt (Nat.lt_succ_self pos))),
            writeCell_self] at hm2
          cases hm2
          exact hmfree
        simp only [slideDown, hlt, if_true, hm, hn]
        exact ih (pos + 1) c _ hg1m hg1
      | some target =>
        cases hc : canMerge target m fz with
        | false => simp [slideDown, hlt, hm, hn, hc, hcell]
        | true =>
          have hne2 : ¬(r0 = pos + 1 ∧ c0 = c) := by
            rintro ⟨h1, h2⟩
            rw [h1, h2] at hcell
            rw [hcell] at hn
            cases hn
            have := not_frozen₁_of_canMerge hc
            rw [ht] at this
            cases this
          simp only [slideDown, hlt, if_true, hm, hn, hc]
          show writeCell (writeCell g (pos + 1) c (some (mergedTile target m))) pos c none r0 c0 =
            some t
          rw [writeCell_of_ne hne1, writeCell_of_ne hne2]
          exact hcell
  · simp [slideDown, hlt, hcell]

theorem stepDown_frozen_preserved {fz : FrozenMap} {r0 c0 : Nat} {t : Tile}
    (ht : isTileFrozen t.id fz = true) :
    ∀ (g : GridF) (r c : Nat), g r0 c0 = some t →
    (stepDown fz g r c).grid r0 c0 = some t := by
intro g r c hcell
cases hx : g r c with
| none => simp [stepDown, hx, hcell]
| some x =>
  cases hf : isTileFrozen x.id fz with
  | true => simp [stepDown, hx, hf, hcell]
  | false =>
    have hs : stepDown fz g r c = slideDown fz c (3 - r) r g := by simp [stepDown, hx, hf]
    rw [hs]
    refine slideDown_frozen_preserved ht (3 - r) r c g ?_ hcell
    intro m hm
    rw [hx] at hm
    cases hm
    exact hf

/-! ## Resolution-level lemmas -/

theorem resolveMove_of_not_moved (dir : Dir) (g : GridF) (fz : FrozenMap)
    (h : (resolveMove dir g fz).moved = false) :
    resolveMove dir g fz = ⟨clearFlagsGrid g, false, false, 0⟩ := by
cases dir with
| left =>
  exact foldCells_of_not_moved _ (stepLeft_of_not_moved fz) _ _ h
| right =>
  exact foldCells_of_not_moved _ (stepRight_of_not_moved fz) _ _ h
| up =>
  exact foldCells_of_not_moved _ (stepUp_of_not_moved fz) _ _ h
| down =>
  exact foldCells_of_not_moved _ (stepDown_of_not_moved fz) _ _ h

theorem resolveMove_frozen_cell (dir : Dir) {g : GridF} {fz : FrozenMap} {r c : Nat} {t : Tile}
    (h : g r c = some t) (hf : isTileFrozen t.id fz = true) :
    (resolveMove dir g fz).grid r c = some (clearTileFlags t) := by
have hcc : clearFlagsGrid g r c = some (clearTileFlags t) := clearFlagsGrid_some h
have hf2 : isTileFrozen (clearTileFlags t).id fz = true := by
  rw [clearTileFlags_id]
  exact hf
cases dir with
| left =>
  exact foldCells_preserve _ (fun gg => gg r c = some (clearTileFlags t))
    (fun g2 rr cc hp => stepLeft_frozen_preserved hf2 g2 rr cc hp) _ _ hcc
| right =>
  exact foldCells_preserve _ (fun gg => gg r c = some (clearTileFlags t))
    (fun g2 rr cc hp => stepRight_frozen_preserved hf2 g2 rr cc hp) _ _ hcc
| up =>
  exact foldCells_preserve _ (fun gg => gg r c = some (clearTileFlags t))
    (fun g2 rr cc hp => stepUp_frozen_preserved hf2 g2 rr cc hp) _ _ hcc
| down =>
  exact foldCells_preserve _ (fun gg => gg r c = some (clearTileFlags t))
    (fun g2 rr cc hp => stepDown_frozen_preserved hf2 g2 rr cc hp) _ _ hcc

theorem resolveMove_clearFlags (dir : Dir) (g : GridF) (fz : FrozenMap) :
    resolveMove dir (clearFlagsGrid g) fz = resolveMove dir g fz := by
unfold resolveMove
rw [clearFlagsGrid_idem]

/-! ## Claim theorems -/

/-- C7: for every grid, direction and frozen-tile map, a tile whose freeze
counter is positive occupies the same cell before and after move
resolution with the very same identity, level and coordinates (only its
transient animation flags are reset, as they are for every tile); in
particular it is never the target of a merge (that would raise its level
and set its merged flag) nor a consumed merge participant nor slid over or
onto (either would vacate or overwrite its cell). -/
theorem frozen_tile_never_moves_nor_merges :
    ∀ (g : GridF) (dir : Dir) (fz : FrozenMap) (r c : Nat) (t : Tile),
    g r c = some t → isTileFrozen t.id fz = true →
    (resolveMove dir g fz).grid r c = some (clearTileFlags t) := by
intro g dir fz r c t h hf
exact resolveMove_frozen_cell dir h hf

/-- Witness for C7: on the concrete board gridC7 a frozen tile below an
equal-level tile stays in place under a down move. -/
theorem frozen_tile_never_moves_nor_merges_witness :
    (resolveMove .down gridC7 frozenC7).grid 1 1 = some (clearTileFlags (mkTile 1 3 1 1)) :=
frozen_tile_never_moves_nor_merges gridC7 .down frozenC7 1 1 (mkTile 1 3 1 1) rfl (by decide)

/-- C6: the Joker law of canMerge and getMergeResult. Two Jokers never
merge, under any freeze state and any flags. A pair of unfrozen,
not-yet-merged tiles of which exactly one is a Joker may merge in either
target/mover orientation, and the outcome in both orientations is a
non-Joker tile one rank above the non-Joker participant. -/
theorem joker_merge_law :
    ∀ (fz : FrozenMap) (t1 t2 : Tile),
    (t1.isJoker = true → t2.isJoker = true → canMerge t1 t2 fz = false) ∧
    (t1.merged = false → t2.merged = false →
     isTileFrozen t1.id fz = false → isTileFrozen t2.id fz = false →
     t1.isJoker = true → t2.isJoker = false →
     canMerge t1 t2 fz = true ∧ canMerge t2 t1 fz = true ∧
     getMergeResult t1 t2 = ⟨t2.level + 1, false⟩ ∧
     getMergeResult t2 t1 = ⟨t2.level + 1, false⟩) := by
intro fz t1 t2
constructor
· intro hj1 hj2
  unfold canMerge
  simp [hj1, hj2]
· intro hm1 hm2 hf1 hf2 hj1 hj2
  refine ⟨?_, ?_, ?_, ?_⟩
  · unfold canMerge
    simp [hm1, hm2, hf1, hf2, hj1, hj2]
  · unfold canMerge
    simp [hm1, hm2, hf1, hf2, hj1, hj2]
  · unfold getMergeResult
    simp [hj1, hj2]
  · unfold getMergeResult
    simp [hj1, hj2]

/-- Witness for C6 on a concrete Joker and a concrete rank-4 tile. -/
theorem joker_merge_law_witness :
    canMerge tileJokerC6 tileFourC6 noFrozen = true ∧
    canMerge tileFourC6 tileJokerC6 noFrozen = true ∧
    getMergeResult tileJokerC6 tileFourC6 = ⟨5, false⟩ ∧
    getMergeResult tileFourC6 tileJokerC6 = ⟨5, false⟩ ∧
    canMerge tileJokerC6 tileJokerC6 noFrozen = false := by
have h := joker_merge_law noFrozen tileJokerC6 tileFourC6
have h2 := (h.2 rfl rfl (by decide) (by decide) rfl rfl)
exact ⟨h2.1, h2.2.1, h2.2.2.1, h2.2.2.2, (joker_merge_law noFrozen tileJokerC6 tileJokerC6).1 rfl rfl⟩

/-- C9: when resolution reports moved = false the session transition of
handleMove leaves every component of the state unchanged apart from the
in-place reset of the transient tile flags: no score mutation, no spawn
(the id counter is untouched), no history push, no undo arming, and the
grid holds the same tiles in the same cells. The resolution also produced
no merge and a zero score delta, and re-invoking the same direction on the
resulting state again yields moved = false. -/
theorem invalid_move_is_noop :
    ∀ (s : SessionState) (dir : Dir) (env : Env),
    s.powerUpState.inputLocked = false →
    (resolveMove dir s.grid s.powerUpState.frozenTiles).moved = false →
    handleMove dir env s = { s with grid := clearFlagsGrid s.grid } ∧
    (resolveMove dir s.grid s.powerUpState.frozenTiles).scoreDelta = 0 ∧
    (resolveMove dir s.grid s.powerUpState.frozenTiles).merged = false ∧
    (resolveMove dir (handleMove dir env s).grid
      (handleMove dir env s).powerUpState.frozenTiles).moved = false := by
intro s dir env hlock hmv
have hres := resolveMove_of_not_moved dir s.grid s.powerUpState.frozenTiles hmv
have h1 : handleMove dir env s = { s with grid := clearFlagsGrid s.grid } := by
  unfold handleMove
  simp [hlock, hmv]
refine ⟨h1, ?_, ?_, ?_⟩
· rw [hres]
· rw [hres]
· rw [h1]
  show (resolveMove dir (clearFlagsGrid s.grid) s.powerUpState.frozenTiles).moved = false
  rw [resolveMove_clearFlags]
  exact hmv

/-- Witness for C9: a left move on the fresh empty-board session. -/
theorem invalid_move_is_noop_witness :
    handleMove .left envC2 baseState = { baseState with grid := clearFlagsGrid baseState.grid } ∧
    (resolveMove .left baseState.grid baseState.powerUpState.frozenTiles).scoreDelta = 0 ∧
    (resolveMove .left baseState.grid baseState.powerUpState.frozenTiles).merged = false ∧
    (resolveMove .left (handleMove .left envC2 baseState).grid
      (handleMove .left envC2 baseState).powerUpState.frozenTiles).moved = false :=
invalid_move_is_noop baseState .left envC2 (by decide) (by decide)

/-! ## The deadlock scan characterisation (toward C8) -/

theorem canMerge_iff_specMergeReady (t1 t2 : Tile) (fz : FrozenMap) :
    canMerge t1 t2 fz = true ↔ specMergeReady t1 t2 fz := by
cases hm1 : t1.merged <;> cases hm2 : t2.merged <;>
  cases hf1 : isTileFrozen t1.id fz <;> cases hf2 : isTileFrozen t2.id fz <;>
  cases hj1 : t1.isJoker <;> cases hj2 : t2.isJoker <;>
  simp [canMerge, specMergeReady, hm1, hm2, hf1, hf2, hj1, hj2]

theorem cells16_coords : ∀ rc ∈ cells16, rc.1 < 4 ∧ rc.2 < 4 := by decide

theorem mem_cells16 (r c : Fin 4) : (r.1, c.1) ∈ cells16 := by
fin_cases r <;> fin_cases c <;> decide

theorem emptyScan_iff (g : GridF) :
    (cells16.any fun rc => (g rc.1 rc.2).isNone) = true ↔
    ∃ r c : Fin 4, g r.1 c.1 = none := by
constructor
· intro h
  obtain ⟨rc, hmem, hp⟩ := List.any_eq_true.mp h
  obtain ⟨h1, h2⟩ := cells16_coords rc hmem
  exact ⟨⟨rc.1, h1⟩, ⟨rc.2, h2⟩, Option.isNone_iff_eq_none.mp hp⟩
· rintro ⟨r, c, h⟩
  refine List.any_eq_true.mpr ⟨(r.1, c.1), mem_cells16 r c, ?_⟩
  simp [h]

theorem mergeScan_iff (g : GridF) (fz : FrozenMap) :
    (cells16.any fun rc => cellHasMergeOption g fz rc.1 rc.2) = true ↔
    compatPairExists g fz := by
constructor
· intro h
  obtain ⟨rc, hmem, hp⟩ := List.any_eq_true.mp h
  obtain ⟨hr4, hc4⟩ := cells16_coords rc hmem
  unfold cellHasMergeOption at hp
  cases hcur : g rc.1 rc.2 with
  | none => rw [hcur] at hp; cases hp
  | some cur =>
    rw [hcur] at hp
    rw [Bool.or_eq_true, Bool.or_eq_true, Bool.or_eq_true] at hp
    rcases hp with ((hright | hdown) | hleft) | hup
    · rw [Bool.and_eq_true] at hright
      have hlt : rc.2 < 3 := of_decide_eq_true hright.1
      cases hn : g rc.1 (rc.2 + 1) with
      | none => rw [hn] at hright; cases hright.2
      | some t2 =>
        rw [hn] at hright
        refine ⟨⟨rc.1, hr4⟩, ⟨rc.2, hc4⟩, ⟨rc.1, hr4⟩, ⟨rc.2 + 1, by omega⟩, cur, t2,
          Or.inl ⟨rfl, rfl⟩, hcur, hn, ?_⟩
        exact (canMerge_iff_specMergeReady cur t2 fz).mp hright.2
    · rw [Bool.and_eq_true] at hdown
      have hlt : rc.1 < 3 := of_decide_eq_true hdown.1
      cases hn : g (rc.1 + 1) rc.2 with
      | none => rw [hn] at hdown; cases hdown.2
      | some t2 =>
        rw [hn] at hdown
        refine ⟨⟨rc.1, hr4⟩, ⟨rc.2, hc4⟩, ⟨rc.1 + 1, by omega⟩, ⟨rc.2, hc4⟩, cur, t2,
          Or.inr (Or.inl ⟨rfl, rfl⟩), hcur, hn, ?_⟩
        exact (canMerge_iff_specMergeReady cur t2 fz).mp hdown.2
    · rw [Bool.and_eq_true] at hleft
      have hlt : 0 < rc.2 := of_decide_eq_true hleft.1
      cases hn : g rc.1 (rc.2 - 1) with
      | none => rw [hn] at hleft; cases hleft.2
      | some t2 =>
        rw [hn] at hleft
        refine ⟨⟨rc.1, hr4⟩, ⟨rc.2, hc4⟩, ⟨rc.1, hr4⟩, ⟨rc.2 - 1, by omega⟩, cur, t2,
          Or.inr (Or.inr (Or.inl ⟨rfl, (Nat.succ_pred_eq_of_pos hlt).symm⟩)), hcur, hn, ?_⟩
        exact (canMerge_iff_specMergeReady cur t2 fz).mp hleft.2
    · rw [Bool.and_eq_true] at hup
      have hlt : 0 < rc.1 := of_decide_eq_true hup.1
      cases hn : g (rc.1 - 1) rc.2 with
      | none => rw [hn] at hup; cases hup.2
      | some t2 =>
        rw [hn] at hup
        refine ⟨⟨rc.1, hr4⟩, ⟨rc.2, hc4⟩, ⟨rc.1 - 1, by omega⟩, ⟨rc.2, hc4⟩, cur, t2,
          Or.inr (Or.inr (Or.inr ⟨(Nat.succ_pred_eq_of_pos hlt).symm, rfl⟩)), hcur, hn, ?_⟩
        exact (canMerge_iff_specMergeReady cur t2 fz).mp hup.2
· rintro ⟨r, c, r2, c2, t1, t2, hadj, h1, h2, hready⟩
  have hcm : canMerge t1 t2 fz = true := (canMerge_iff_specMergeReady t1 t2 fz).mpr hready
  have hr2b : r2.1 < 4 := r2.2
  have hc2b : c2.1 < 4 := c2.2
  refine List.any_eq_true.mpr ⟨(r.1, c.1), mem_cells16 r c, ?_⟩
  show cellHasMergeOption g fz r.1 c.1 = true
  unfold cellHasMergeOption
  rw [h1]
  rw [Bool.or_eq_true, Bool.or_eq_true, Bool.or_eq_true]
  rcases hadj with ⟨he1, he2⟩ | ⟨he1, he2⟩ | ⟨he1, he2⟩ | ⟨he1, he2⟩
  · refine Or.inl (Or.inl (Or.inl ?_))
    rw [Bool.and_eq_true]
    have hlt : c.1 < 3 := by omega
    have hcell : g r.1 (c.1 + 1) = some t2 := by
      rw [← he2]
      rw [he1] at h2
      exact h2
    rw [hcell]
    exact ⟨decide_eq_true hlt, hcm⟩
  · refine Or.inl (Or.inl (Or.inr ?_))
    rw [Bool.and_eq_true]
    have hlt : r.1 < 3 := by omega
    have hcell : g (r.1 + 1) c.1 = some t2 := by
      rw [← he1]
      rw [he2] at h2
      exact h2
    rw [hcell]
    exact ⟨decide_eq_true hlt, hcm⟩
  · refine Or.inl (Or.inr ?_)
    rw [Bool.and_eq_true]
    have hlt : 0 < c.1 := by omega
    have hcell : g r.1 (c.1 - 1) = some t2 := by
      have hcc : c.1 - 1 = c2.1 := by omega
      rw [hcc, he1]
      exact h2
    rw [hcell]
    exact ⟨decide_eq_true hlt, hcm⟩
  · refine Or.inr ?_
    rw [Bool.and_eq_true]
    have hlt : 0 < r.1 := by omega
    have hcell : g (r.1 - 1) c.1 = some t2 := by
      have hrr : r.1 - 1 = r2.1 := by omega
      rw [hrr, he2]
      exact h2
    rw [hcell]
    exact ⟨decide_eq_true hlt, hcm⟩

/-- C8 counterexample: on a full board of unfrozen level-1 tiles that all
still carry the merged-this-pass flag, canMakeAnyMove returns false even
though the board has no empty cell and the adjacent pair at (0,0)/(0,1) is
merge-compatible in the sense the claim defines (same non-Joker level,
neither frozen). The biconditional of the claim therefore fails at this
grid: its right-hand side demands a true result here. -/
theorem canMakeAnyMove_claim_counterexample :
    canMakeAnyMove gridC8 noFrozen = false ∧
    noEmptyCell gridC8 ∧
    gridC8 0 0 = some ⟨1, 1, 0, 0, true, false, false, false⟩ ∧
    gridC8 0 1 = some ⟨2, 1, 0, 1, true, false, false, false⟩ ∧
    claimMergeCompatible ⟨1, 1, 0, 0, true, false, false, false⟩
      ⟨2, 1, 0, 1, true, false, false, false⟩ noFrozen := by
refine ⟨by decide, by unfold noEmptyCell; decide, by decide, by decide, ?_⟩
unfold claimMergeCompatible
refine ⟨by decide, by decide, Or.inr (Or.inr ⟨rfl, rfl, rfl⟩)⟩

/-- C8 amended: canMakeAnyMove is false exactly when the grid has no empty
cell and no 4-neighbor pair of tiles is merge-compatible under the current
freeze state and merge flags: same non-Joker level or exactly one Joker,
with neither tile frozen and neither tile still carrying the
merged-this-pass flag. -/
theorem canMakeAnyMove_false_iff :
    ∀ (g : GridF) (fz : FrozenMap),
    canMakeAnyMove g fz = false ↔ (noEmptyCell g ∧ ¬compatPairExists g fz) := by
intro g fz
unfold canMakeAnyMove
rw [Bool.or_eq_false_iff]
constructor
· rintro ⟨h1, h2⟩
  constructor
  · intro r c
    rw [← Bool.not_eq_false]
    intro hnone
    have : (cells16.any fun rc => (g rc.1 rc.2).isNone) = true := by
      rw [emptyScan_iff]
      exact ⟨r, c, Option.not_isSome_iff_eq_none.mp (by rw [hnone]; simp)⟩
    rw [this] at h1
    cases h1
  · intro hpair
    have : (cells16.any fun rc => cellHasMergeOption g fz rc.1 rc.2) = true :=
      (mergeScan_iff g fz).mpr hpair
    rw [this] at h2
    cases h2
· rintro ⟨hfull, hnopair⟩
  constructor
  · rw [← Bool.not_eq_true]
    intro hany
    obtain ⟨r, c, hnone⟩ := (emptyScan_iff g).mp hany
    have := hfull r c
    rw [hnone] at this
    cases this
  · rw [← Bool.not_eq_true]
    intro hany
    exact hnopair ((mergeScan_iff g fz).mp hany)

/-- Witness for C8 (amended): the biconditional instantiated at the full
board gridC1 with no frozen tiles. -/
theorem canMakeAnyMove_false_iff_witness :
    canMakeAnyMove gridC1 noFrozen = false ↔
    (noEmptyCell gridC1 ∧ ¬compatPairExists gridC1 noFrozen) :=
canMakeAnyMove_false_iff gridC1 noFrozen

/-! ## History-cap lemmas (toward C3) -/

theorem pushUndoHistory_length (hist : List Snapshot) (extraUndos : Nat) (snap : Snapshot) :
    (pushUndoHistory hist extraUndos snap).length ≤ extraUndos + 2 := by
unfold pushUndoHistory
have hmax : max 2 (extraUndos + 2) = extraUndos + 2 := by omega
rw [hmax]
show (if extraUndos + 2 < (hist ++ [snap]).length then
    List.drop ((hist ++ [snap]).length - (extraUndos + 2)) (hist ++ [snap])
  else hist ++ [snap]).length ≤ extraUndos + 2
split
next hgt =>
  rw [List.length_drop]
  omega
next hle =>
  omega

theorem pushUndoHistory_suffix (hist : List Snapshot) (extraUndos : Nat) (snap : Snapshot) :
    pushUndoHistory hist extraUndos snap <:+ hist ++ [snap] := by
unfold pushUndoHistory
show (if max 2 (extraUndos + 2) < (hist ++ [snap]).length then
    List.drop ((hist ++ [snap]).length - max 2 (extraUndos + 2)) (hist ++ [snap])
  else hist ++ [snap]) <:+ hist ++ [snap]
split
· exact List.drop_suffix _ _
· exact List.suffix_refl _

theorem extraUndoAvailableP_pos {s : SessionState} (h : extraUndoAvailableP s = true) :
    0 < s.powerUpState.extraUndos := by
unfold extraUndoAvailableP at h
rw [Bool.and_eq_true, Bool.and_eq_true, Bool.and_eq_true] at h
exact of_decide_eq_true h.1.1.1

theorem handleMove_locked (dir : Dir) (env : Env) (s : SessionState)
    (h : s.powerUpState.inputLocked = true) : handleMove dir env s = s := by
unfold handleMove
rw [if_pos h]

theorem handleMove_eq_of_not_moved (dir : Dir) (env : Env) (s : SessionState)
    (hlock : s.powerUpState.inputLocked = false)
    (hmv : (resolveMove dir s.grid s.powerUpState.frozenTiles).moved = false) :
    handleMove dir env s = { s with grid := clearFlagsGrid s.grid } := by
unfold handleMove
simp [hlock, hmv]

theorem handleMove_moved_fields (dir : Dir) (env : Env) (s : SessionState)
    (hlock : s.powerUpState.inputLocked = false)
    (hmv : (resolveMove dir s.grid s.powerUpState.frozenTiles).moved = true) :
    (handleMove dir env s).undoHistory =
      pushUndoHistory s.undoHistory s.powerUpState.extraUndos (mkSnapshot s) ∧
    (handleMove dir env s).powerUpState.extraUndos = s.powerUpState.extraUndos ∧
    (handleMove dir env s).wasRestartedViaHold = false := by
unfold handleMove
simp only [hlock, Bool.false_eq_true, if_false, hmv, if_true]
refine ⟨by trivial, ?_, by trivial⟩
split <;> split <;> rfl

theorem histInv_handleMove (dir : Dir) (env : Env) (s : SessionState) (h : histInv s) :
    histInv (handleMove dir env s) := by
by_cases hlock : s.powerUpState.inputLocked = true
· rw [handleMove_locked dir env s hlock]
  exact h
· rw [Bool.not_eq_true] at hlock
  by_cases hmv : (resolveMove dir s.grid s.powerUpState.frozenTiles).moved = true
  · obtain ⟨hh, he, hw⟩ := handleMove_moved_fields dir env s hlock hmv
    constructor
    · rw [hh, he]
      exact pushUndoHistory_length _ _ _
    · intro hq
      rw [hw] at hq
      cases hq
  · rw [Bool.not_eq_true] at hmv
    rw [handleMove_eq_of_not_moved dir env s hlock hmv]
    exact h

theorem histInv_handleUsePowerUp (pid : Nat) (s : SessionState) (h : histInv s) :
    histInv (handleUsePowerUp pid s) := by
obtain ⟨h1, h2⟩ := h
unfold handleUsePowerUp
cases hf : s.powerUpState.powerUps.find? (fun p => p.id == pid) with
| none => exact ⟨h1, h2⟩
| some p =>
  dsimp only
  by_cases hgo : s.isGameOver = true
  · rw [if_pos hgo]
    exact ⟨h1, h2⟩
  · rw [if_neg hgo]
    cases p.type with
    | undo => exact ⟨Nat.le_succ_of_le h1, h2⟩
    | slowmo => exact ⟨h1, h2⟩
    | freeze => exact ⟨h1, h2⟩
    | swap => exact ⟨h1, h2⟩
    | delete => exact ⟨h1, h2⟩

theorem histInv_handleUndo (s : SessionState) (h : histInv s) :
    histInv (handleUndo s) := by
obtain ⟨h1, h2⟩ := h
unfold handleUndo
by_cases hlock : s.powerUpState.inputLocked = true
· rw [if_pos hlock]
  exact ⟨h1, h2⟩
· rw [if_neg hlock]
  by_cases hcond : (normalUndoAllowedP s || extraUndoAvailableP s) = true
  case neg =>
    rw [if_neg hcond]
    exact ⟨h1, h2⟩
  rw [if_pos hcond]
  cases hw : s.wasRestartedViaHold with
  | true =>
    have hemp : s.undoHistory = [] := h2 hw
    cases hpre : s.preRestartState with
    | some pre =>
      simp only [hw, hpre, hemp]
      exact ⟨Nat.zero_le _, fun hq => absurd hq Bool.false_ne_true⟩
    | none =>
      cases hprev : s.previousState with
      | some p =>
        simp [hw, hpre, hemp, hprev, histInv]
      | none =>
        simp [hw, hpre, hemp, hprev, histInv]
  | false =>
    cases hx : extraUndoAvailableP s with
    | true =>
      have hxe : 0 < s.powerUpState.extraUndos := extraUndoAvailableP_pos hx
      cases hh : s.undoHistory with
      | cons a rest =>
        rw [hh] at h1
        simp only [List.length_cons] at h1
        simp [hw, hx, hh, histInv]
        omega
      | nil =>
        cases hprev : s.previousState with
        | some p =>
          simp [hw, hx, hh, hprev, histInv]
        | none =>
          simp [hw, hx, hh, hprev, histInv]
    | false =>
      cases hprev : s.previousState with
      | some p =>
        simp [hw, hx, hprev, histInv]
      | none =>
        cases hh : s.undoHistory with
        | nil =>
          simp [hw, hx, hh, hprev, histInv]
        | cons a rest =>
          rw [hh] at h1
          simp only [List.length_cons] at h1
          simp [hw, hx, hh, hprev, histInv]
          omega

/-- C3 counterexample: two successful moves from a session in which no
power-up was ever generated (the per-rank generated set stays empty, the
inventory stays empty, no extra-undo credit exists) leave two snapshots in
the history, exceeding the cap of 1 + 0 the claim asserts. -/
theorem history_cap_claim_counterexample :
    stateC3b.undoHistory.length = 2 ∧
    stateC3b.generatedPowerUpLevels = [] ∧
    stateC3b.powerUpState.powerUps = [] ∧
    stateC3b.powerUpState.extraUndos = 0 ∧
    ¬(stateC3b.undoHistory.length ≤ 1) := by
refine ⟨by decide, by decide, by decide, by decide, by decide⟩

/-- C3 (amended): at every point, the undo-history length is bounded by
2 plus the CURRENT extra-undo credit count (a bound that shrinks again
when credits are consumed), the bound is preserved by every move, undo and
power-up use, and on a successful move the new history is a suffix of the
old history with the new snapshot appended, so oldest entries are evicted
first. -/
theorem undo_history_cap_invariant :
    ∀ s : SessionState, histInv s →
    (∀ dir env, histInv (handleMove dir env s)) ∧
    histInv (handleUndo s) ∧
    (∀ pid, histInv (handleUsePowerUp pid s)) ∧
    (∀ dir env, s.powerUpState.inputLocked = false →
      (resolveMove dir s.grid s.powerUpState.frozenTiles).moved = true →
      (handleMove dir env s).undoHistory <:+ s.undoHistory ++ [mkSnapshot s]) := by
intro s h
refine ⟨fun dir env => histInv_handleMove dir env s h, histInv_handleUndo s h,
  fun pid => histInv_handleUsePowerUp pid s h, ?_⟩
intro dir env hlock hmv
rw [(handleMove_moved_fields dir env s hlock hmv).1]
exact pushUndoHistory_suffix _ _ _

/-- Witness for C3 (amended) at the fresh session. -/
theorem undo_history_cap_invariant_witness :
    (∀ dir env, histInv (handleMove dir env baseState)) ∧
    histInv (handleUndo baseState) ∧
    (∀ pid, histInv (handleUsePowerUp pid baseState)) ∧
    (∀ dir env, baseState.powerUpState.inputLocked = false →
      (resolveMove dir baseState.grid baseState.powerUpState.frozenTiles).moved = true →
      (handleMove dir env baseState).undoHistory <:+
        baseState.undoHistory ++ [mkSnapshot baseState]) :=
undo_history_cap_invariant baseState ⟨by decide, fun _ => rfl⟩

/-- C4 counterexample: at stateC4 a baseline undo is permitted, the live
inventory is empty, yet after the undo the inventory holds the Freeze
power-up captured in the snapshot: undo does restore inventory slots. -/
theorem undo_restores_inventory_counterexample :
    normalUndoAllowedP stateC4 = true ∧
    stateC4.powerUpState.powerUps = [] ∧
    (handleUndo stateC4).powerUpState.powerUps = [⟨1, .freeze⟩] ∧
    ([] : List PowerUp) ≠ [⟨1, .freeze⟩] := by
refine ⟨by decide, by decide, by decide, by decide⟩

/-- C4 (amended): outside the input lock and the hold-restart branch, an
undo redeemed through an extra-undo credit leaves the live inventory
unchanged, while a baseline undo restores the power-up state captured in
the snapshot, inventory slots included. -/
theorem undo_inventory_policy :
    ∀ s : SessionState,
    s.powerUpState.inputLocked = false →
    s.wasRestartedViaHold = false →
    ((extraUndoAvailableP s = true →
      (handleUndo s).powerUpState.powerUps = s.powerUpState.powerUps) ∧
     (normalUndoAllowedP s = true → extraUndoAvailableP s = false →
      ∀ p ps, s.previousState = some p → p.powerUpState = some ps →
      (handleUndo s).powerUpState.powerUps = ps.powerUps)) := by
intro s hlock hw
constructor
· intro hx
  unfold handleUndo
  rw [if_neg (by rw [hlock]; exact Bool.false_ne_true)]
  rw [if_pos (by rw [hx, Bool.or_true])]
  cases hh : s.undoHistory with
  | cons a rest =>
    simp [hw, hx, hh]
  | nil =>
    cases hprev : s.previousState with
    | some p => simp [hw, hx, hh, hprev]
    | none => simp [hw, hx, hh, hprev]
· intro hn hx p ps hp hps
  unfold handleUndo
  rw [if_neg (by rw [hlock]; exact Bool.false_ne_true)]
  rw [if_pos (by rw [hn, Bool.true_or])]
  simp [hw, hx, hp, hps]

/-- Witness for C4 (amended): the baseline undo at stateC4 restores the
snapshot inventory, and the extra undo at stateC5 keeps the live one. -/
theorem undo_inventory_policy_witness :
    (handleUndo stateC4).powerUpState.powerUps = puC4.powerUps ∧
    (handleUndo stateC5).powerUpState.powerUps = stateC5.powerUpState.powerUps :=
⟨(undo_inventory_policy stateC4 (by decide) rfl).2 (by decide) (by decide)
    snapC4 puC4 rfl rfl,
  (undo_inventory_policy stateC5 (by decide) rfl).1 (by decide)⟩

/-- C5 counterexample: at stateC5 an extra-undo redemption is permitted
and the most recent retained snapshot is snapC5b (id counter 200), but the
undo restores snapC5a (id counter 100), the OLDEST retained snapshot, and
pops it from the front of the stack. -/
theorem extra_undo_restores_oldest_counterexample :
    extraUndoAvailableP stateC5 = true ∧
    stateC5.undoHistory.map Snapshot.nextId = [100, 200] ∧
    (handleUndo stateC5).nextId = 100 ∧
    (handleUndo stateC5).undoHistory.map Snapshot.nextId = [200] ∧
    (100 : Nat) ≠ 200 := by
refine ⟨by decide, by decide, by decide, by decide, by decide⟩

/-- C5 (amended): outside the input lock and the hold-restart branch, a
baseline undo restores previousState — the snapshot taken before the most
recent move — and clears the stack, while an undo redeemed through an
extra-undo credit restores the oldest retained snapshot and removes it
from the front of the stack. -/
theorem undo_restore_policy :
    ∀ s : SessionState,
    s.powerUpState.inputLocked = false →
    s.wasRestartedViaHold = false →
    ((extraUndoAvailableP s = true →
      ∀ a rest, s.undoHistory = a :: rest →
      (handleUndo s).grid = a.grid ∧ (handleUndo s).score = a.score ∧
      (handleUndo s).nextId = a.nextId ∧ (handleUndo s).undoHistory = rest) ∧
     (normalUndoAllowedP s = true → extraUndoAvailableP s = false →
      ∀ p, s.previousState = some p →
      (handleUndo s).grid = p.grid ∧ (handleUndo s).score = p.score ∧
      (handleUndo s).nextId = p.nextId ∧ (handleUndo s).undoHistory = [])) := by
intro s hlock hw
constructor
· intro hx a rest hh
  unfold handleUndo
  rw [if_neg (by rw [hlock]; exact Bool.false_ne_true)]
  rw [if_pos (by rw [hx, Bool.or_true])]
  simp [hw, hx, hh]
· intro hn hx p hp
  unfold handleUndo
  rw [if_neg (by rw [hlock]; exact Bool.false_ne_true)]
  rw [if_pos (by rw [hn, Bool.true_or])]
  simp [hw, hx, hp]

/-- Witness for C5 (amended) at stateC5 and stateC4. -/
theorem undo_restore_policy_witness :
    ((handleUndo stateC5).grid = snapC5a.grid ∧ (handleUndo stateC5).score = snapC5a.score ∧
     (handleUndo stateC5).nextId = snapC5a.nextId ∧
     (handleUndo stateC5).undoHistory = [snapC5b]) ∧
    ((handleUndo stateC4).grid = snapC4.grid ∧ (handleUndo stateC4).score = snapC4.score ∧
     (handleUndo stateC4).nextId = snapC4.nextId ∧ (handleUndo stateC4).undoHistory = []) :=
⟨(undo_restore_policy stateC5 (by decide) rfl).1 (by decide) snapC5a [snapC5b] rfl,
  (undo_restore_policy stateC4 (by decide) rfl).2 (by decide) (by decide) snapC4 rfl⟩

/-- C1: the code evaluated at the failing input. Freezing the tile at
(0,0) of the full board gridC1 would deadlock it — wouldFreezingCauseDeadlock
reports true, canSafelyFreezeTile reports false — yet completing the
Freeze selection runs no safety check: applyPowerUpSelection freezes the
tile for 3 turns, removes the Freeze power-up from inventory and unlocks
input, instead of aborting to Idle with the power-up retained as the claim
requires. -/
theorem freeze_applies_without_safety_check :
    wouldFreezingCauseDeadlock gridC1 1 noFrozen 0 = true ∧
    canSafelyFreezeTile gridC1 1 noFrozen 0 = false ∧
    stateC1.powerUpState.slowMotionTurns = 0 ∧
    (applyPowerUpSelection selectionC1 stateC1).powerUpState.frozenTiles 1 = some 3 ∧
    (applyPowerUpSelection selectionC1 stateC1).powerUpState.powerUps = [] ∧
    (applyPowerUpSelection selectionC1 stateC1).powerUpState.selectingPowerUp = none ∧
    (applyPowerUpSelection selectionC1 stateC1).powerUpState.inputLocked = false := by
refine ⟨by decide, by decide, by decide, by decide, by decide, by decide, by decide⟩

/-- C2: the code evaluated at the failing input. After the successful
right move on stateC2 the board is full and admits no move while the tile
with id 13 is frozen and slow-motion is inactive; the claim requires the
session to release the frozen tile and not declare game over, but
handleMove sets the game-over flag and leaves the tile frozen (its counter
merely ticked from 2 to 1). -/
theorem no_recovery_before_game_over :
    isTileFrozen 13 stateC2.powerUpState.frozenTiles = true ∧
    stateC2.powerUpState.slowMotionTurns = 0 ∧
    (resolveMove .right stateC2.grid stateC2.powerUpState.frozenTiles).moved = true ∧
    (handleMove .right envC2 stateC2).isGameOver = true ∧
    isTileFrozen 13 (handleMove .right envC2 stateC2).powerUpState.frozenTiles = true ∧
    (handleMove .right envC2 stateC2).powerUpState.frozenTiles 13 = some 1 := by
refine ⟨by decide, by decide, by decide, by decide, by decide, by decide⟩

/-- C10: canPickTile is a total function that answers false, never
failing, whenever the coordinates are outside the 4x4 board or the cell is
empty (grid[row]?.[col] reads undefined there), and a pick at such a
coordinate leaves the whole session state, the armed SelectionSession
included, unchanged. -/
theorem pick_out_of_bounds_rejected :
    ∀ (row col : Int),
    (∀ (g : GridF) (sel : Option SelectingPowerUp) (fz : FrozenMap),
      (¬(0 ≤ row ∧ row < 4 ∧ 0 ≤ col ∧ col < 4) ∨ gridGetI g row col = none) →
      canPickTile row col g sel fz = false) ∧
    (∀ s : SessionState, gridGetI s.grid row col = none →
      handleTileSelection row col s = s) := by
intro row col
constructor
· intro g sel fz hbad
  cases sel with
  | none => rfl
  | some sp =>
    have hnone : gridGetI g row col = none := by
      rcases hbad with hob | hn
      · unfold gridGetI
        rw [if_neg hob]
      · exact hn
    simp [canPickTile, hnone]
· intro s hnone
  unfold handleTileSelection
  cases hsel : s.powerUpState.selectingPowerUp with
  | none => rfl
  | some sp =>
    have hcp : canPickTile row col s.grid (some sp) s.powerUpState.frozenTiles = false := by
      simp [canPickTile, hnone]
    simp [hcp]

/-- Witness for C10 at the out-of-bounds coordinate (-1, 2). -/
theorem pick_out_of_bounds_rejected_witness :
    canPickTile (-1) 2 emptyGrid (some selectionC10) noFrozen = false ∧
    handleTileSelection (-1) 2 baseState = baseState :=
⟨(pick_out_of_bounds_rejected (-1) 2).1 emptyGrid (some selectionC10) noFrozen
    (Or.inl (by decide)),
  (pick_out_of_bounds_rejected (-1) 2).2 baseState (by decide)⟩

end EmojiFusion
